import Mathlib

/-! DynoNomics: price reconciliation, enum codec, credential manager and price feed client.

A shallow embedding of `index.js`, `src/BidirectionalEnum.js`, `src/ResourceEnum.js`,
`src/RecommendationEnum.js`, `src/TokenManager.js` and `src/ExchangePriceService.js`.

JavaScript values are restricted to the shapes the program handles.  Property
reads `o[k]` follow ECMAScript `[[Get]]`: own properties first, then the
prototype chain.  A number carried by the feed (`amount`) is the value that
`JSON.parse` produced: the exact value of a finite double, or an infinity when
the literal overflows.  Files are held as what `JSON.parse` reads from them, and
every write goes through `JSON.stringify`.
-/

set_option autoImplicit false

namespace DynoNomics

/-! ## JavaScript values and errors -/

/-- The JavaScript values that a property read on a class object can give:
`num` is a number with an integer value (the declared ids, `length`), `ref` a
function and `obj` an object that is not a function, both identified by a
descriptive name. -/
inductive JSVal where
  | undefined
  | num (n : Int)
  | str (s : String)
  | ref (name : String)
  | obj (name : String)
  deriving DecidableEq, Repr

/-- Errors that can be thrown while a cycle runs. -/
inductive JSError where
  | typeError (msg : String)
  | fetchError (msg : String)
  | ioError (msg : String)
  deriving DecidableEq, Repr

deriving instance DecidableEq for Except

/-- Property key of a number used as an index, `o[n]` reads the key `String(n)`. -/
def propertyKey (n : Int) : String := toString n

/-! ## Built-in prototypes (ECMAScript standard objects) -/

/-- String-keyed properties of `Object.prototype`; every one of them reads as a
function or object, never as `undefined`. -/
def objectPrototypeKeys : List String :=
  ["constructor", "__defineGetter__", "__defineSetter__", "hasOwnProperty",
   "__lookupGetter__", "__lookupSetter__", "isPrototypeOf", "propertyIsEnumerable",
   "toString", "valueOf", "__proto__", "toLocaleString"]

/-- Reading key `k` on `Object.prototype`. -/
def objectPrototypeGet (k : String) : JSVal :=
  if k ∈ objectPrototypeKeys then .ref ("Object.prototype." ++ k) else .undefined

/-- Reading key `k` through `Function.prototype` with a class constructor as
receiver.  `caller` and `arguments` are accessors that throw a `TypeError` for
strict functions (class constructors are strict). -/
def functionPrototypeGet (k : String) : Except JSError JSVal :=
  if k = "caller" ∨ k = "arguments" then
    .error (.typeError "restricted function property accessed on a strict function")
  else if k = "length" then .ok (.num 0)
  else if k = "name" then .ok (.str "")
  else if k ∈ ["apply", "bind", "call", "constructor", "toString"] then
    .ok (.ref ("Function.prototype." ++ k))
  else .ok (objectPrototypeGet k)

/-! ## Class objects and the bidirectional enum -/

/-- A class constructor seen as an object: its name, its own static data
properties in creation order, and whether `Object.freeze` was applied. -/
structure ClassObject where
  name : String
  statics : List (String × JSVal)
  frozen : Bool
  deriving DecidableEq, Repr

/-- The enumerable own string-keyed properties, `Object.entries(c)`. -/
def ClassObject.entries (c : ClassObject) : List (String × JSVal) := c.statics

/-- Assignment `c[k] = v` on a class object: ignored when frozen, replaces an
own static, otherwise adds one. -/
def ClassObject.assign (c : ClassObject) (k : String) (v : JSVal) : ClassObject :=
  if c.frozen then c
  else if (c.statics.lookup k).isSome then
    { c with statics := c.statics.map (fun p => if p.1 = k then (k, v) else p) }
  else { c with statics := c.statics ++ [(k, v)] }

/-- Own property read on a class constructor: static fields, then the
intrinsic `length` (no declared constructor parameters), `name` and `prototype`. -/
def ClassObject.getOwn (c : ClassObject) (k : String) : Option JSVal :=
  match c.statics.lookup k with
  | some v => some v
  | none =>
    if k = "length" then some (.num 0)
    else if k = "name" then some (.str c.name)
    else if k = "prototype" then some (.obj (c.name ++ ".prototype"))
    else none

/-- The accessor `__proto__` inherited from `Object.prototype` yields the
prototype of the receiver: the next class of the chain, or `Function.prototype`. -/
def protoOf : List ClassObject → JSVal
  | _ :: p :: _ => .ref p.name
  | _ => .ref "Function.prototype"

/-- Read of key `k` along a chain of class objects (receiver first), falling
back to `Function.prototype` and `Object.prototype`. -/
def chainGet (receiver : List ClassObject) : List ClassObject → String → Except JSError JSVal
  | [], k => if k = "__proto__" then .ok (protoOf receiver) else functionPrototypeGet k
  | c :: rest, k =>
    match c.getOwn k with
    | some v => .ok v
    | none => chainGet receiver rest k

/-- The static initialisation block of `BidirectionalEnum`, run once with
`this` bound to the class whose body contains it. -/
def BidirectionalEnum.staticBlock (this : ClassObject) : ClassObject :=
  let filled := this.entries.foldl
    (fun acc kv =>
      match kv.2 with
      | .num n => acc.assign (propertyKey n) (.str kv.1)
      | _ => acc)
    this
  { filled with frozen := true }

/-- The class `BidirectionalEnum`: no static fields of its own, then its
static block. -/
def BidirectionalEnum : ClassObject :=
  BidirectionalEnum.staticBlock { name := "BidirectionalEnum", statics := [], frozen := false }

/-- The static fields of `ResourceEnum`, in declaration order. -/
def ResourceEnum.table : List (String × Int) :=
  [("EARTH", 1), ("WATER", 2), ("FIRE", 3), ("MUD", 4), ("CLAY", 5), ("SAND", 6),
   ("COPPER", 7), ("SEAWATER", 8), ("HEAT", 9), ("ALGAE", 10), ("LAVA", 11),
   ("CERAMICS", 12), ("STEEL", 13), ("OXYGEN", 14), ("GLASS", 15), ("GAS", 16),
   ("STONE", 17), ("STEAM", 18), ("SCREWS", 19), ("FUEL", 20), ("CEMENT", 21),
   ("OIL", 22), ("ACID", 23), ("SULFUR", 24), ("PLASTICS", 25), ("FIBERGLASS", 26),
   ("ENERGY", 27), ("HYDROGEN", 28), ("DYNAMITE", 29), ("COIN", 30)]

/-- The class `ResourceEnum extends BidirectionalEnum`: its body declares static
fields only, so no static block runs with `this = ResourceEnum`. -/
def ResourceEnum : ClassObject :=
  { name := "ResourceEnum",
    statics := ResourceEnum.table.map (fun p => (p.1, JSVal.num p.2)),
    frozen := false }

/-- The static fields of `RecommendationEnum`. -/
def RecommendationEnum.table : List (String × Int) :=
  [("BUY", 1), ("SELL", 2), ("HOLD", 3)]

/-- The class `RecommendationEnum extends BidirectionalEnum`. -/
def RecommendationEnum : ClassObject :=
  { name := "RecommendationEnum",
    statics := RecommendationEnum.table.map (fun p => (p.1, JSVal.num p.2)),
    frozen := false }

/-- The read `ResourceEnum[k]`. -/
def ResourceEnum.get (k : String) : Except JSError JSVal :=
  chainGet [ResourceEnum, BidirectionalEnum] [ResourceEnum, BidirectionalEnum] k

/-- The read `RecommendationEnum[k]`. -/
def RecommendationEnum.get (k : String) : Except JSError JSVal :=
  chainGet [RecommendationEnum, BidirectionalEnum] [RecommendationEnum, BidirectionalEnum] k

/-! ## Numbers and JSON -/

/-- A number as `JSON.parse` produces it: the value of a finite double, or an
infinity when the literal overflows (`1e999`).  `NaN` is never produced.  Every
finite double is a rational; the rationals that are not doubles are never
delivered, and nothing below depends on their absence. -/
inductive JSNumber where
  | finite (q : ℚ)
  | posInfinity
  | negInfinity
  deriving DecidableEq, Repr

/-- Numerals denote finite numbers. -/
instance instOfNatJSNumber (n : Nat) : OfNat JSNumber n := ⟨.finite n⟩

/-- The number is finite. -/
def JSNumber.isFinite (n : JSNumber) : Bool :=
  match n with
  | .finite _ => true
  | _ => false

/-- A value held by the snapshot object: a number, or `null`. -/
inductive SnapValue where
  | null
  | number (n : JSNumber)
  deriving DecidableEq, Repr

/-- Numerals denote finite numbers. -/
instance instOfNatSnapValue (n : Nat) : OfNat SnapValue n := ⟨.number (.finite n)⟩

/-- What `JSON.parse(JSON.stringify(v))` gives for a snapshot value: a finite
number is kept, an infinity is written as `null`. -/
def SnapValue.viaJSON (v : SnapValue) : SnapValue :=
  match v with
  | .number (.finite q) => .number (.finite q)
  | _ => .null

/-- A value written by `JSON.stringify` for a field of a record. -/
inductive JSONValue where
  | null
  | number (q : ℚ)
  | string (s : String)
  | emptyObject
  deriving DecidableEq, Repr

/-- The JSON of a number: `null` for an infinity. -/
def JSNumber.toJSON (n : JSNumber) : JSONValue :=
  match n with
  | .finite q => .number q
  | _ => .null

/-- The JSON of a value read from a class object, as the value of a property:
`none` when `JSON.stringify` omits the property (`undefined`, a function); a
prototype object has no enumerable property and is written `{}`. -/
def JSVal.toJSON (v : JSVal) : Option JSONValue :=
  match v with
  | .undefined => none
  | .num n => some (.number n)
  | .str s => some (.string s)
  | .ref _ => none
  | .obj _ => some .emptyObject

/-! ## Plain objects: the baseline snapshot -/

/-- The baseline snapshot (`lastPrices.json` once parsed): the own properties
of a plain object, symbol name to value, in insertion order (the place the
engine gives to integer-like keys is not represented; reads do not depend on
it). -/
abbrev Snapshot := List (String × SnapValue)

/-- Own property of a snapshot. -/
def Snapshot.getOwn (m : Snapshot) (k : String) : Option SnapValue := m.lookup k

/-- What a read `m[k]` on a plain object can give: `undefined`, `null`, a
number, or a function or object inherited from `Object.prototype`. -/
inductive ReadValue where
  | undefined
  | null
  | number (n : JSNumber)
  | inherited (name : String)
  deriving DecidableEq, Repr

/-- The read `m[k]` on a plain object: own property, else `Object.prototype`. -/
def Snapshot.get (m : Snapshot) (k : String) : ReadValue :=
  match m.getOwn k with
  | some .null => .null
  | some (.number n) => .number n
  | none =>
    if k ∈ objectPrototypeKeys then .inherited ("Object.prototype." ++ k) else .undefined

/-- The operator `a ?? b`: `b` when `a` is `undefined` or `null`. -/
def nullish (a b : ReadValue) : ReadValue :=
  match a with
  | .undefined => b
  | .null => b
  | v => v

/-- Replace the value of an existing own key. -/
def Snapshot.replace (k : String) (v : SnapValue) : Snapshot → Snapshot
  | [] => []
  | p :: rest => if p.1 = k then (k, v) :: rest else p :: Snapshot.replace k v rest

/-- The assignment `m[k] = v` on a plain object: an own property is updated; the
inherited accessor `__proto__` ignores a number; any other key becomes a new own
property. -/
def Snapshot.set (m : Snapshot) (k : String) (v : SnapValue) : Snapshot :=
  if (m.getOwn k).isSome then Snapshot.replace k v m
  else if k = "__proto__" then m
  else m ++ [(k, v)]

/-- What `JSON.parse` reads back from `JSON.stringify(map, null, 2)`: the same
keys, each value through JSON. -/
def Snapshot.viaJSON (m : Snapshot) : Snapshot := m.map (fun p => (p.1, p.2.viaJSON))

/-! ## The reconciliation cycle (`index.js`) -/

/-- One entry of `exchangePriceList.prices`, with the three fields the query
asks for: two strings and a number, as parsed from the JSON of the response. -/
structure PriceEntry where
  referenceSymbol : String
  amount : JSNumber
  recommendation : String
  deriving DecidableEq, Repr

/-- One element pushed on `toAppend`: `{ s, a, r, t }`. -/
structure ChangeRecord where
  s : JSVal
  a : JSNumber
  r : JSVal
  t : Int
  deriving DecidableEq, Repr

/-- One line of the log: the JSON of a record.  A property whose value is a
function is absent from the line. -/
structure LogLine where
  s : Option JSONValue
  a : JSONValue
  r : Option JSONValue
  t : Int
  deriving DecidableEq, Repr

/-- The line `JSON.stringify(e)` of a record. -/
def ChangeRecord.toLine (e : ChangeRecord) : LogLine :=
  { s := e.s.toJSON, a := e.a.toJSON, r := e.r.toJSON, t := e.t }

/-- The two files of the program.  The append log `data/prices.json` is absent,
or holds lines.  The snapshot `data/lastPrices.json` is absent or unreadable, or
holds a JSON object of numbers and nulls, given by what `JSON.parse` reads from
it (an overflowing literal reads as an infinity); this covers every snapshot the
program writes.  A snapshot file whose text is another JSON value is not
represented. -/
structure Files where
  prices : Option (List LogLine)
  lastPrices : Option Snapshot
  deriving DecidableEq, Repr

/-- What the surroundings decide during one cycle: the result of
`getCurrentPrices()` (its `prices` on success), the value of `Date.now()`, and
whether each file write succeeds. -/
structure Env where
  fetch : Except JSError (List PriceEntry)
  now : Int
  createOk : Bool
  appendOk : Bool
  saveOk : Bool
  deriving DecidableEq, Repr

/-- File-system write calls issued by a cycle, with what they write: the lines
of the blob, and the snapshot as it reads back from the text written. -/
inductive FileOp where
  | createLog
  | appendLog (batch : List LogLine)
  | writeSnapshot (map : Snapshot)
  deriving DecidableEq, Repr

/-- The mutable locals of the loop: `toAppend` and `newSnapshot`. -/
structure LoopState where
  toAppend : List ChangeRecord
  newSnapshot : Snapshot
  deriving DecidableEq, Repr

/-- The function `loadLastPrices`: the parsed snapshot, or `{}` on any failure. -/
def loadLastPrices (files : Files) : Snapshot :=
  match files.lastPrices with
  | some m => m
  | none => []

/-- The value `lastPricesMap[referenceSymbol] ?? 0`. -/
def lastAmount (lastPricesMap : Snapshot) (entry : PriceEntry) : ReadValue :=
  nullish (lastPricesMap.get entry.referenceSymbol) (.number 0)

/-- The body of the `for` loop for one entry.  Both enum reads happen before the
tests; `recommendationId` is declared `const`, so the assignment that should
default it to `HOLD` throws a `TypeError`. -/
def processEntry (lastPricesMap : Snapshot) (timestamp : Int) (st : LoopState)
    (entry : PriceEntry) : Except JSError LoopState :=
  if lastAmount lastPricesMap entry ≠ .number entry.amount then
    match ResourceEnum.get entry.referenceSymbol with
    | .error e => .error e
    | .ok symbolId =>
      match RecommendationEnum.get entry.recommendation with
      | .error e => .error e
      | .ok recommendationId =>
        if symbolId = .undefined then .ok st
        else if recommendationId = .undefined then
          .error (.typeError "Assignment to constant variable.")
        else
          .ok { toAppend := st.toAppend ++
                  [{ s := symbolId, a := entry.amount, r := recommendationId, t := timestamp }],
                newSnapshot :=
                  st.newSnapshot.set entry.referenceSymbol (.number entry.amount) }
  else .ok st

/-- The `for` loop over `exchangePriceList.prices`. -/
def processEntries (lastPricesMap : Snapshot) (timestamp : Int) :
    LoopState → List PriceEntry → Except JSError LoopState
  | st, [] => .ok st
  | st, entry :: rest =>
    match processEntry lastPricesMap timestamp st entry with
    | .error e => .error e
    | .ok st1 => processEntries lastPricesMap timestamp st1 rest

/-- What a cycle leaves behind: the files, the write calls it issued, and the
error reported by its `catch` block, if any. -/
structure Outcome where
  files : Files
  ops : List FileOp
  caught : Option JSError
  deriving DecidableEq, Repr

/-- The blob appended to the log: one line `JSON.stringify(e)` per record. -/
def blobOf (toAppend : List ChangeRecord) : List LogLine :=
  toAppend.map ChangeRecord.toLine

/-- The function `saveLastPrices`, by what the file reads back as after
`writeFile(snapshotPath, JSON.stringify(map, null, 2))`. -/
def saveLastPrices (map : Snapshot) : Snapshot := map.viaJSON

/-- The writes after the loop, for a non-empty `toAppend`: ensure the log
exists, append the blob, save the snapshot; the first failing write stops the
sequence. -/
def writeChanges (env : Env) (files : Files) (st : LoopState) : Outcome :=
  let created : Outcome :=
    match files.prices with
    | some _ => { files := files, ops := [], caught := none }
    | none =>
      if env.createOk then
        { files := { files with prices := some [] }, ops := [.createLog], caught := none }
      else
        { files := files, ops := [.createLog],
          caught := some (.ioError "writeFile prices.json") }
  match created.caught with
  | some e => { created with caught := some e }
  | none =>
    if env.appendOk then
      let appended : Files :=
        { created.files with
          prices := some ((created.files.prices.getD []) ++ blobOf st.toAppend) }
      if env.saveOk then
        { files := { appended with lastPrices := some (saveLastPrices st.newSnapshot) },
          ops := created.ops ++
            [.appendLog (blobOf st.toAppend), .writeSnapshot (saveLastPrices st.newSnapshot)],
          caught := none }
      else
        { files := appended,
          ops := created.ops ++
            [.appendLog (blobOf st.toAppend), .writeSnapshot (saveLastPrices st.newSnapshot)],
          caught := some (.ioError "writeFile lastPrices.json") }
    else
      { files := created.files, ops := created.ops ++ [.appendLog (blobOf st.toAppend)],
        caught := some (.ioError "appendFile prices.json") }

/-- The function `fetchAndStorePrices`.  The outer `Except` is the rejection
channel of the async function; everything thrown inside the `try` is caught. -/
def fetchAndStorePrices (env : Env) (files : Files) : Except JSError Outcome :=
  match env.fetch with
  | .error e => .ok { files := files, ops := [], caught := some e }
  | .ok prices =>
    let lastPricesMap := loadLastPrices files
    let timestamp := env.now
    match processEntries lastPricesMap timestamp
        { toAppend := [], newSnapshot := lastPricesMap } prices with
    | .error e => .ok { files := files, ops := [], caught := some e }
    | .ok st =>
      if st.toAppend.length = 0 then .ok { files := files, ops := [], caught := none }
      else .ok (writeChanges env files st)

/-- A cycle in which every write succeeds. -/
def Env.writesOk (fresh : List PriceEntry) (now : Int) : Env :=
  { fetch := .ok fresh, now := now, createOk := true, appendOk := true, saveOk := true }

/-! ## Credential manager (`src/TokenManager.js`) -/

/-- A `Date` object: a time value in epoch milliseconds, or an invalid date. -/
inductive JSDate where
  | valid (ms : Int)
  | invalid
  deriving DecidableEq, Repr

/-- The public fields of a `TokenManager`; `none` is `null`. -/
structure TokenManager where
  accessToken : Option String
  expiresIn : Option Int
  tokenType : Option String
  refreshToken : Option String
  idToken : Option String
  userId : Option String
  projectId : Option String
  expiresAt : Option JSDate
  deriving DecidableEq, Repr

/-- The test `!v` on a field holding `null` or a string: `null` and the empty
string are falsy. -/
def falsyString (v : Option String) : Bool :=
  match v with
  | none => true
  | some s => s = ""

/-- The comparison `new Date() < d` at current time `now`; it is false for an
invalid date. -/
def dateBefore (now : Int) (d : JSDate) : Bool :=
  match d with
  | .valid ms => now < ms
  | .invalid => false

/-- The method `isTokenValid`, at current time `now`. -/
def TokenManager.isTokenValid (tm : TokenManager) (now : Int) : Bool :=
  match tm.expiresAt with
  | none => false
  | some d => if falsyString tm.accessToken then false else dateBefore now d

/-- The constant `TokenManager.TOKEN_BUFFER_SECONDS`. -/
def TokenManager.TOKEN_BUFFER_SECONDS : Int := 60

/-- Largest magnitude of the time value of a `Date`, in milliseconds. -/
def maxTimeValue : Int := 8640000000000000

/-- The date `new Date(v)` for a number `v`: `none` is a value that is not a
number (`NaN`); a time value out of range gives an invalid date. -/
def JSDate.ofTime (v : Option Int) : JSDate :=
  match v with
  | none => .invalid
  | some ms => if -maxTimeValue ≤ ms ∧ ms ≤ maxTimeValue then .valid ms else .invalid

/-- The body of a successful reply of the token endpoint, `response.data`.  A
field that is absent from the body is `none`; `expires_in` holds its numeric
value (`none` when absent or not numeric). -/
structure TokenResponse where
  access_token : Option String
  expires_in : Option Int
  token_type : Option String
  refresh_token : Option String
  id_token : Option String
  user_id : Option String
  project_id : Option String
  deriving DecidableEq, Repr

/-- How the call `this.#client.post(...)` of `refresh` can end: no response
received (`error.request`), a response with an error status (`error.response`,
with `data?.error?.message`), another error, or a resolved response whose body
is `none` when it is `null` or `undefined`. -/
inductive TokenReply where
  | noResponse
  | errorStatus (status : Int) (message : Option String)
  | otherError (message : String)
  | success (data : Option TokenResponse)
  deriving DecidableEq, Repr

/-- The three errors thrown by the `catch` block of `refresh`. -/
inductive TokenError where
  | failed (status : Int) (message : String)
  | network
  | other (message : String)
  deriving DecidableEq, Repr

/-- The text of the `Error` thrown by `refresh`. -/
def TokenError.message (e : TokenError) : String :=
  match e with
  | .failed status message =>
    "Token refresh failed (" ++ toString status ++ "): " ++ message
  | .network => "Network error during token refresh. Please check your connection."
  | .other message => "Token refresh error: " ++ message

/-- The expression `m || fallback` on an optional string. -/
def orDefault (m : Option String) (fallback : String) : String :=
  match m with
  | some s => if s = "" then fallback else s
  | none => fallback

/-- The body posted to the token endpoint. -/
structure TokenRequest where
  grant_type : String
  refresh_token : Option String
  deriving DecidableEq, Repr

/-- What a call of `refresh` leaves: the fields of the manager, the value
returned or the error thrown, and the request that was posted. -/
structure RefreshResult where
  manager : TokenManager
  result : Except TokenError TokenResponse
  request : TokenRequest
  deriving DecidableEq, Repr

/-- The method `refresh`; `now` is `Date.now()` when the reply is handled.
Reading `response.data.access_token` on a missing body throws before any field
is assigned. -/
def TokenManager.refresh (tm : TokenManager) (reply : TokenReply) (now : Int) : RefreshResult :=
  let request : TokenRequest :=
    { grant_type := "refresh_token", refresh_token := tm.refreshToken }
  match reply with
  | .success (some data) =>
    let expirationSeconds := data.expires_in.map (fun n => n - TokenManager.TOKEN_BUFFER_SECONDS)
    let expirationMilliseconds := expirationSeconds.map (fun n => n * 1000)
    { manager :=
        { accessToken := data.access_token,
          expiresIn := data.expires_in,
          tokenType := data.token_type,
          refreshToken := data.refresh_token,
          idToken := data.id_token,
          userId := data.user_id,
          projectId := data.project_id,
          expiresAt := some (JSDate.ofTime (expirationMilliseconds.map (fun n => now + n))) },
      result := .ok data,
      request := request }
  | .success none =>
    { manager := tm,
      result := .error (.other "Cannot read properties of undefined (reading access_token)"),
      request := request }
  | .errorStatus status message =>
    { manager := tm,
      result := .error (.failed status (orDefault message "Token refresh failed")),
      request := request }
  | .noResponse => { manager := tm, result := .error .network, request := request }
  | .otherError message =>
    { manager := tm, result := .error (.other message), request := request }

/-- A reply on which `refresh` fails: anything but a resolved response with a
body. -/
def TokenReply.fails (reply : TokenReply) : Bool :=
  match reply with
  | .success (some _) => false
  | _ => true

/-- The instant `now + (n - TOKEN_BUFFER_SECONDS) * 1000` computed by `refresh`. -/
def expiryInstant (now n : Int) : Int :=
  now + (n - TokenManager.TOKEN_BUFFER_SECONDS) * 1000

/-- The instant lies in the range of time values of a `Date`. -/
def inDateRange (ms : Int) : Prop := -maxTimeValue ≤ ms ∧ ms ≤ maxTimeValue

/-- What a call of `getValidToken` leaves: the fields of the manager, the token
returned or the error thrown, and the refresh requests posted. -/
structure TokenCall where
  manager : TokenManager
  result : Except TokenError (Option String)
  requests : List TokenRequest
  deriving DecidableEq, Repr

/-- The method `getValidToken`, called at time `now`; when a refresh is needed
its reply is handled at time `replyAt`. -/
def TokenManager.getValidToken (tm : TokenManager) (now : Int) (reply : TokenReply)
    (replyAt : Int) : TokenCall :=
  if tm.isTokenValid now then
    { manager := tm, result := .ok tm.accessToken, requests := [] }
  else
    let r := tm.refresh reply replyAt
    match r.result with
    | .error e => { manager := r.manager, result := .error e, requests := [r.request] }
    | .ok _ => { manager := r.manager, result := .ok r.manager.accessToken,
                 requests := [r.request] }

/-- The method `clearTokens`. -/
def TokenManager.clearTokens (tm : TokenManager) : TokenManager :=
  { tm with accessToken := none, expiresIn := none, tokenType := none, idToken := none,
            userId := none, projectId := none, expiresAt := none }

/-- The errors thrown by the constructor of `TokenManager`. -/
inductive ConfigError where
  | refreshTokenRequired
  | apiKeyRequired
  deriving DecidableEq, Repr

/-- The test `!v || typeof v !== 'string'` of the constructor. -/
def notNonEmptyString (v : JSVal) : Bool :=
  match v with
  | .str s => s = ""
  | _ => true

/-- The constructor of `TokenManager`.  The private `#apiKey` only shapes the
URL of the request and is not kept in the model. -/
def TokenManager.create (refreshToken apiKey : JSVal) : Except ConfigError TokenManager :=
  if notNonEmptyString refreshToken then .error .refreshTokenRequired
  else if notNonEmptyString apiKey then .error .apiKeyRequired
  else
    .ok { accessToken := none, expiresIn := none, tokenType := none,
          refreshToken := (match refreshToken with | .str s => some s | _ => none),
          idToken := none, userId := none, projectId := none, expiresAt := none }

/-! ## Price feed client (`src/ExchangePriceService.js`) -/

/-- The value `exchangePriceList` of the feed: `{ baseSymbol, prices }`. -/
structure PriceList where
  baseSymbol : String
  prices : List PriceEntry
  deriving DecidableEq, Repr

/-- What reading `exchangePriceList` gives: one object `{ baseSymbol, prices }`,
as `index.js` reads it, an array of such objects, as `getPricesForSymbol` reads
it, or nothing (`undefined` or `null`). -/
inductive FeedPayload where
  | object (list : PriceList)
  | array (items : List PriceList)
  | absent
  deriving DecidableEq, Repr

/-- The top-level `errors` of a feed response, as the test
`if (response.data.errors)` sees it: absent, present with a falsy value
(`null`, `false`, `0`, the empty string), or truthy, then given by its
serialisation `JSON.stringify(errors)`; an array, even empty, is truthy. -/
inductive ErrorsField where
  | absent
  | falsy
  | truthy (serialized : String)
  deriving DecidableEq, Repr

/-- The top-level `data` of a feed response: `undefined` or `null`, on which
reading `exchangePriceList` throws, or a value, with what that read gives. -/
inductive DataField where
  | nullish
  | value (exchangePriceList : FeedPayload)
  deriving DecidableEq, Repr

/-- The body of a feed response, `response.data`: `undefined` or `null`, or a
value with its `errors` and `data`. -/
inductive FeedBody where
  | nullish
  | value (errors : ErrorsField) (data : DataField)
  deriving DecidableEq, Repr

/-- How the call `this.#client.post('graphql', ...)` can end once the request is
sent: no response, a response with an error status (with
`data?.errors?.[0]?.message`), another error, or a resolved response. -/
inductive FeedReply where
  | noResponse
  | errorStatus (status : Int) (message : Option String)
  | otherError (message : String)
  | success (body : FeedBody)
  deriving DecidableEq, Repr

/-- The three errors thrown by the `catch` block of `getCurrentPrices`:
`Exchange price request failed (status): message`, the network error, and
`Exchange price request error: message`. -/
inductive FeedError where
  | failed (status : Int) (message : String)
  | network
  | other (message : String)
  deriving DecidableEq, Repr

/-- A request sent to the feed, by its `Authorization` header. -/
structure FeedRequest where
  authorization : String
  deriving DecidableEq, Repr

/-- The text of a token inside a template literal; an absent token reads as
`undefined`. -/
def templateText (token : Option String) : String :=
  match token with
  | some s => s
  | none => "undefined"

/-- The request interceptor installed by the constructor: the header it sets for
the token obtained from `getValidToken`. -/
def authorizationHeader (token : Option String) : String :=
  "Bearer jwt_" ++ templateText token

/-- What a call of `getCurrentPrices` leaves: the fields of the token manager,
the value returned or the error thrown, the refresh requests, and the feed
requests sent. -/
structure FeedCall where
  manager : TokenManager
  result : Except FeedError FeedPayload
  tokenRequests : List TokenRequest
  requests : List FeedRequest
  deriving DecidableEq, Repr

/-- The method `getCurrentPrices` over a token manager.  The interceptor asks
for a token first; when that throws, nothing is sent and the `catch` block
wraps the message of the error.  On a resolved response the reads
`response.data.errors` and `response.data.data.exchangePriceList` throw a
`TypeError` inside the `try` when their object is `undefined` or `null`; that
error has neither `response` nor `request`, so the last branch of the `catch`
wraps its message, as it wraps the error thrown for a truthy `errors`.  The text
of a `TypeError` is the engine's; it is given here in the wording for
`undefined`, without the quotes around the property name. -/
def getCurrentPrices (tm : TokenManager) (now : Int) (tokenReply : TokenReply)
    (replyAt : Int) (feedReply : FeedReply) : FeedCall :=
  let call := tm.getValidToken now tokenReply replyAt
  match call.result with
  | .error e =>
    { manager := call.manager, result := .error (.other e.message),
      tokenRequests := call.requests, requests := [] }
  | .ok token =>
    let sent : List FeedRequest := [{ authorization := authorizationHeader token }]
    let result : Except FeedError FeedPayload :=
      match feedReply with
      | .success .nullish =>
        .error (.other "Cannot read properties of undefined (reading errors)")
      | .success (.value (.truthy serialized) _) =>
        .error (.other ("GraphQL errors: " ++ serialized))
      | .success (.value _ .nullish) =>
        .error (.other "Cannot read properties of undefined (reading exchangePriceList)")
      | .success (.value _ (.value exchangePriceList)) => .ok exchangePriceList
      | .errorStatus status message =>
        .error (.failed status (orDefault message "Exchange price request failed"))
      | .noResponse => .error .network
      | .otherError message => .error (.other message)
    { manager := call.manager, result := result,
      tokenRequests := call.requests, requests := sent }

/-- Errors of `getPricesForSymbol`: the error of `getCurrentPrices`, or a
`TypeError` raised by the method itself. -/
inductive LookupError where
  | feed (e : FeedError)
  | typeError (message : String)
  deriving DecidableEq, Repr

/-- The method `getPricesForSymbol`, on the outcome of its `getCurrentPrices`
call: `priceList.find(...) || null`.  A plain object has no `find`, so the call
throws a `TypeError`, as does the read of `find` on `undefined` or `null`. -/
def getPricesForSymbol (fetched : Except FeedError FeedPayload) (baseSymbol : String) :
    Except LookupError (Option PriceList) :=
  match fetched with
  | .error e => .error (.feed e)
  | .ok (.object _) => .error (.typeError "priceList.find is not a function")
  | .ok .absent => .error (.typeError "Cannot read properties of undefined (reading find)")
  | .ok (.array items) => .ok (items.find? (fun item => item.baseSymbol = baseSymbol))

/-! ## Reading the loop entry by entry -/

/-- What the loop body does with an entry, as observed on `processEntry`:
leave the state alone, throw, or push a record with the given ids. -/
inductive Verdict where
  | same
  | fail (err : JSError)
  | push (s r : JSVal)
  deriving DecidableEq, Repr

/-- The verdict of the loop body for `entry` against `lastPricesMap`. -/
def verdict (lastPricesMap : Snapshot) (entry : PriceEntry) : Verdict :=
  match processEntry lastPricesMap 0 { toAppend := [], newSnapshot := [] } entry with
  | .error err => .fail err
  | .ok st =>
    match st.toAppend with
    | [] => .same
    | rec :: _ => .push rec.s rec.r

/-- The symbols of a price list, in order. -/
def symbols (fresh : List PriceEntry) : List String := fresh.map (fun e => e.referenceSymbol)

/-- The names declared by `ResourceEnum`. -/
def ResourceEnum.names : List String := ResourceEnum.table.map (fun p => p.1)

/-- The names declared by `RecommendationEnum`. -/
def RecommendationEnum.names : List String := RecommendationEnum.table.map (fun p => p.1)

/-- The record pushed for an entry, if its verdict is a push. -/
def recordOf (lastPricesMap : Snapshot) (timestamp : Int) (entry : PriceEntry) :
    Option ChangeRecord :=
  match verdict lastPricesMap entry with
  | .push s r => some { s := s, a := entry.amount, r := r, t := timestamp }
  | _ => none

/-- The records the loop pushes over a list, as long as no entry throws. -/
def batchOf (lastPricesMap : Snapshot) (timestamp : Int) (fresh : List PriceEntry) :
    List ChangeRecord :=
  fresh.filterMap (recordOf lastPricesMap timestamp)

/-- The snapshot the loop builds over a list, as long as no entry throws. -/
def snapshotOf (lastPricesMap : Snapshot) : Snapshot → List PriceEntry → Snapshot
  | acc, [] => acc
  | acc, entry :: rest =>
    match verdict lastPricesMap entry with
    | .push _ _ =>
      snapshotOf lastPricesMap (acc.set entry.referenceSymbol (.number entry.amount)) rest
    | _ => snapshotOf lastPricesMap acc rest

/-- The number a baseline holds for a symbol, as the loop uses it: its own
value when that is a number, 0 when the symbol is absent or holds `null`. -/
def storedNumber (v : Option SnapValue) : JSNumber :=
  match v with
  | some (.number n) => n
  | _ => 0

/-- Two cycles in a row: the second starts from the files left by the first. -/
def runTwice (env1 env2 : Env) (files : Files) : Except JSError (Outcome × Outcome) :=
  match fetchAndStorePrices env1 files with
  | .error err => .error err
  | .ok o1 =>
    match fetchAndStorePrices env2 o1.files with
    | .error err => .error err
    | .ok o2 => .ok (o1, o2)

/-! ## Lemmas on snapshots -/

theorem Snapshot.getOwn_nil (k : String) : Snapshot.getOwn [] k = none := rfl

theorem Snapshot.getOwn_cons (p : String × SnapValue) (m : Snapshot) (k : String) :
    Snapshot.getOwn (p :: m) k = if k = p.1 then some p.2 else Snapshot.getOwn m k := by
  unfold Snapshot.getOwn
  rw [List.lookup_cons]
  by_cases h : k = p.1
  · simp [h]
  · have : (k == p.1) = false := by simpa using h
    simp [this, h]

theorem Snapshot.getOwn_replace_other (m : Snapshot) (k k1 : String) (v : SnapValue) (h : k1 ≠ k) :
    (Snapshot.replace k v m).getOwn k1 = m.getOwn k1 := by
  induction m with
  | nil => rfl
  | cons p rest ih =>
    unfold Snapshot.replace
    by_cases hp : p.1 = k
    · have h1 : k1 ≠ p.1 := by rw [hp]; exact h
      simp [hp, Snapshot.getOwn_cons, h, h1]
    · simp [hp, Snapshot.getOwn_cons, ih]

theorem Snapshot.getOwn_replace_self (m : Snapshot) (k : String) (v : SnapValue)
    (h : (m.getOwn k).isSome = true) : (Snapshot.replace k v m).getOwn k = some v := by
  induction m with
  | nil => simp [Snapshot.getOwn_nil] at h
  | cons p rest ih =>
    unfold Snapshot.replace
    by_cases hp : p.1 = k
    · simp [hp, Snapshot.getOwn_cons]
    · have hk : k ≠ p.1 := fun hh => hp hh.symm
      rw [Snapshot.getOwn_cons] at h
      simp only [hk, if_false] at h
      simp [hp, Snapshot.getOwn_cons, hk, ih h]

theorem Snapshot.getOwn_append_single (m : Snapshot) (k k1 : String) (v : SnapValue) :
    Snapshot.getOwn (m ++ [(k, v)]) k1 =
      match m.getOwn k1 with
      | some w => some w
      | none => if k1 = k then some v else none := by
  induction m with
  | nil => simp [Snapshot.getOwn_cons, Snapshot.getOwn_nil]
  | cons p rest ih =>
    rw [List.cons_append, Snapshot.getOwn_cons, Snapshot.getOwn_cons]
    by_cases hp : k1 = p.1
    · simp [hp]
    · simp [hp, ih]

theorem Snapshot.getOwn_set_other (m : Snapshot) (k k1 : String) (v : SnapValue) (h : k1 ≠ k) :
    (m.set k v).getOwn k1 = m.getOwn k1 := by
  unfold Snapshot.set
  split
  · exact Snapshot.getOwn_replace_other m k k1 v h
  · split
    · rfl
    · rw [Snapshot.getOwn_append_single]
      cases m.getOwn k1 <;> simp [h]

theorem Snapshot.getOwn_set_self (m : Snapshot) (k : String) (v : SnapValue)
    (h : k ≠ "__proto__" ∨ (m.getOwn k).isSome = true) : (m.set k v).getOwn k = some v := by
  unfold Snapshot.set
  by_cases hs : (m.getOwn k).isSome = true
  · simp only [hs, if_true]
    exact Snapshot.getOwn_replace_self m k v hs
  · have hk : k ≠ "__proto__" := by
      rcases h with h | h
      · exact h
      · exact absurd h hs
    have hs1 : (m.getOwn k).isSome = false := by simpa using hs
    rw [hs1]
    simp only [hk, if_false, Bool.false_eq_true]
    rw [Snapshot.getOwn_append_single]
    have : m.getOwn k = none := by
      cases hm : m.getOwn k with
      | none => rfl
      | some w => simp [hm] at hs
    simp [this]

theorem Snapshot.get_congr (m m1 : Snapshot) (k : String) (h : m1.getOwn k = m.getOwn k) :
    m1.get k = m.get k := by
  unfold Snapshot.get
  rw [h]

/-! ## Lemmas on the loop -/

theorem processEntry_eq_verdict (L : Snapshot) (ts : Int) (st : LoopState) (e : PriceEntry) :
    processEntry L ts st e =
      match verdict L e with
      | .same => .ok st
      | .fail err => .error err
      | .push s r =>
        .ok { toAppend := st.toAppend ++ [{ s := s, a := e.amount, r := r, t := ts }],
              newSnapshot := st.newSnapshot.set e.referenceSymbol (.number e.amount) } := by
  unfold verdict processEntry
  by_cases hc : lastAmount L e = .number e.amount
  · simp [hc]
  · simp only [ne_eq, hc, not_false_eq_true, if_true]
    cases ResourceEnum.get e.referenceSymbol with
    | error err => rfl
    | ok symbolId =>
      cases RecommendationEnum.get e.recommendation with
      | error err => rfl
      | ok recommendationId =>
        by_cases hs : symbolId = .undefined
        · simp [hs]
        · by_cases hr : recommendationId = .undefined
          · simp [hs, hr]
          · simp [hs, hr]

theorem verdict_of_unchanged (L : Snapshot) (e : PriceEntry)
    (h : lastAmount L e = .number e.amount) : verdict L e = .same := by
  unfold verdict processEntry
  simp [h]

theorem verdict_congr (L L1 : Snapshot) (e : PriceEntry)
    (h : lastAmount L1 e = lastAmount L e) : verdict L1 e = verdict L e := by
  unfold verdict processEntry
  rw [h]

theorem verdict_push_iff (L : Snapshot) (e : PriceEntry) (s r : JSVal) :
    verdict L e = .push s r ↔
      lastAmount L e ≠ .number e.amount ∧
      ResourceEnum.get e.referenceSymbol = .ok s ∧ s ≠ .undefined ∧
      RecommendationEnum.get e.recommendation = .ok r ∧ r ≠ .undefined := by
  unfold verdict processEntry
  by_cases hc : lastAmount L e = .number e.amount
  · simp [hc]
  · simp only [ne_eq, hc, not_false_eq_true, if_true, true_and]
    cases ResourceEnum.get e.referenceSymbol with
    | error err => simp
    | ok symbolId =>
      cases RecommendationEnum.get e.recommendation with
      | error err => simp
      | ok recommendationId =>
        by_cases hs : symbolId = .undefined
        · subst hs
          simp
          intro h1 h2
          exact absurd h1.symm h2
        · by_cases hr : recommendationId = .undefined
          · subst hr
            simp [hs]
            intro _ _ h1
            exact h1.symm
          · simp [hs, hr]
            intro h1
            subst h1
            constructor
            · intro h2
              subst h2
              exact ⟨hs, rfl, hr⟩
            · rintro ⟨_, h2, _⟩
              exact h2

theorem verdict_fail_iff (L : Snapshot) (e : PriceEntry) (err : JSError) :
    verdict L e = .fail err ↔
      lastAmount L e ≠ .number e.amount ∧
      (ResourceEnum.get e.referenceSymbol = .error err ∨
       (∃ s, ResourceEnum.get e.referenceSymbol = .ok s ∧
          (RecommendationEnum.get e.recommendation = .error err ∨
           (s ≠ .undefined ∧ RecommendationEnum.get e.recommendation = .ok .undefined ∧
              err = .typeError "Assignment to constant variable.")))) := by
  unfold verdict processEntry
  by_cases hc : lastAmount L e = .number e.amount
  · simp [hc]
  · simp only [ne_eq, hc, not_false_eq_true, if_true, true_and]
    cases ResourceEnum.get e.referenceSymbol with
    | error e1 => simp
    | ok symbolId =>
      cases RecommendationEnum.get e.recommendation with
      | error e1 => simp
      | ok recommendationId =>
        by_cases hs : symbolId = .undefined
        · subst hs
          simp
        · by_cases hr : recommendationId = .undefined
          · subst hr
            simp [hs]
            constructor
            · intro h; exact h.symm
            · intro h; exact h.symm
          · simp [hs, hr]

theorem processEntries_of_no_fail (L : Snapshot) (ts : Int) (es : List PriceEntry) :
    ∀ st : LoopState, (∀ e ∈ es, ∀ err, verdict L e ≠ .fail err) →
      processEntries L ts st es =
        .ok { toAppend := st.toAppend ++ batchOf L ts es,
              newSnapshot := snapshotOf L st.newSnapshot es } := by
  induction es with
  | nil => intro st _; simp [processEntries, batchOf, snapshotOf]
  | cons e rest ih =>
    intro st h
    have he := h e (List.mem_cons_self e rest)
    have hrest : ∀ x ∈ rest, ∀ err, verdict L x ≠ .fail err :=
      fun x hx => h x (List.mem_cons_of_mem e hx)
    unfold processEntries
    rw [processEntry_eq_verdict]
    cases hv : verdict L e with
    | same =>
      simp only []
      rw [ih st hrest]
      simp [batchOf, snapshotOf, recordOf, hv]
    | fail err => exact absurd hv (he err)
    | push s r =>
      simp only []
      rw [ih _ hrest]
      simp [batchOf, snapshotOf, recordOf, hv]

theorem no_fail_of_processEntries_ok (L : Snapshot) (ts : Int) (es : List PriceEntry) :
    ∀ st st1 : LoopState, processEntries L ts st es = .ok st1 →
      ∀ e ∈ es, ∀ err, verdict L e ≠ .fail err := by
  induction es with
  | nil => intro _ _ _ e he; simp at he
  | cons x rest ih =>
    intro st st1 h e he err
    unfold processEntries at h
    rw [processEntry_eq_verdict] at h
    cases hv : verdict L x with
    | same =>
      rw [hv] at h
      simp only [] at h
      rcases List.mem_cons.mp he with rfl | hmem
      · rw [hv]; exact fun hh => by cases hh
      · exact ih st st1 h e hmem err
    | fail e1 =>
      rw [hv] at h
      simp at h
    | push s r =>
      rw [hv] at h
      simp only [] at h
      rcases List.mem_cons.mp he with rfl | hmem
      · rw [hv]; exact fun hh => by cases hh
      · exact ih _ st1 h e hmem err

theorem processEntries_error_stable (L : Snapshot) (ts ts1 : Int) (es : List PriceEntry) :
    ∀ (st st1 : LoopState) (err : JSError), processEntries L ts st es = .error err →
      processEntries L ts1 st1 es = .error err := by
  induction es with
  | nil => intro st st1 err h; simp [processEntries] at h
  | cons x rest ih =>
    intro st st1 err h
    unfold processEntries at h ⊢
    rw [processEntry_eq_verdict] at h ⊢
    cases hv : verdict L x with
    | same =>
      rw [hv] at h
      simp only [] at h ⊢
      exact ih st st1 err h
    | fail e1 =>
      rw [hv] at h
      simp only [] at h ⊢
      exact h
    | push s r =>
      rw [hv] at h
      simp only [] at h ⊢
      exact ih _ _ err h

theorem processEntries_ok_eq (L : Snapshot) (ts : Int) (es : List PriceEntry)
    (st st1 : LoopState) (h : processEntries L ts st es = .ok st1) :
    st1 = { toAppend := st.toAppend ++ batchOf L ts es,
            newSnapshot := snapshotOf L st.newSnapshot es } := by
  have h1 := processEntries_of_no_fail L ts es st (no_fail_of_processEntries_ok L ts es st st1 h)
  rw [h] at h1
  exact Except.ok.inj h1

theorem snapshotOf_append (L : Snapshot) (a b : List PriceEntry) :
    ∀ S : Snapshot, snapshotOf L S (a ++ b) = snapshotOf L (snapshotOf L S a) b := by
  induction a with
  | nil => intro S; rfl
  | cons x rest ih =>
    intro S
    simp only [List.cons_append, snapshotOf]
    cases verdict L x <;> simp only [] <;> exact ih _

theorem snapshotOf_getOwn_frame (L : Snapshot) (k : String) (es : List PriceEntry) :
    ∀ S : Snapshot, (∀ e ∈ es, ∀ s r, verdict L e = .push s r → e.referenceSymbol ≠ k) →
      (snapshotOf L S es).getOwn k = S.getOwn k := by
  induction es with
  | nil => intro S _; rfl
  | cons x rest ih =>
    intro S h
    have hrest : ∀ e ∈ rest, ∀ s r, verdict L e = .push s r → e.referenceSymbol ≠ k :=
      fun e he => h e (List.mem_cons_of_mem x he)
    unfold snapshotOf
    cases hv : verdict L x with
    | same => simp only []; exact ih S hrest
    | fail err => simp only []; exact ih S hrest
    | push s r =>
      simp only []
      rw [ih _ hrest]
      have hx := h x (List.mem_cons_self x rest) s r hv
      exact Snapshot.getOwn_set_other S x.referenceSymbol k (.number x.amount)
        (fun hh => hx hh.symm)

theorem snapshotOf_getOwn_last (L S : Snapshot) (pre post : List PriceEntry) (e : PriceEntry)
    (s r : JSVal) (hv : verdict L e = .push s r)
    (hk : e.referenceSymbol ≠ "__proto__" ∨
      ((snapshotOf L S pre).getOwn e.referenceSymbol).isSome = true)
    (hpost : ∀ x ∈ post, ∀ s1 r1, verdict L x = .push s1 r1 →
      x.referenceSymbol ≠ e.referenceSymbol) :
    (snapshotOf L S (pre ++ e :: post)).getOwn e.referenceSymbol =
      some (.number e.amount) := by
  rw [snapshotOf_append]
  unfold snapshotOf
  rw [hv]
  simp only []
  rw [snapshotOf_getOwn_frame L e.referenceSymbol post _ hpost]
  exact Snapshot.getOwn_set_self _ _ _ hk

theorem batchOf_length_le (L : Snapshot) (ts : Int) (es : List PriceEntry) :
    (batchOf L ts es).length ≤ es.length := by
  unfold batchOf
  exact List.length_filterMap_le _ _

theorem batchOf_eq_nil_iff (L : Snapshot) (ts : Int) (es : List PriceEntry) :
    batchOf L ts es = [] ↔ ∀ e ∈ es, ∀ s r, verdict L e ≠ .push s r := by
  unfold batchOf
  rw [List.filterMap_eq_nil_iff]
  constructor
  · intro h e he s r hv
    have := h e he
    simp [recordOf, hv] at this
  · intro h e he
    unfold recordOf
    cases hv : verdict L e with
    | same => rfl
    | fail err => rfl
    | push s r => exact absurd hv (h e he s r)

theorem snapshotOf_of_batch_nil (L : Snapshot) (ts : Int) (es : List PriceEntry)
    (h : batchOf L ts es = []) : ∀ S : Snapshot, snapshotOf L S es = S := by
  have h1 := (batchOf_eq_nil_iff L ts es).mp h
  clear h
  induction es with
  | nil => intro S; rfl
  | cons x rest ih =>
    intro S
    have hrest : ∀ e ∈ rest, ∀ s r, verdict L e ≠ .push s r :=
      fun e he => h1 e (List.mem_cons_of_mem x he)
    unfold snapshotOf
    cases hv : verdict L x with
    | same => simp only []; exact ih hrest S
    | fail err => simp only []; exact ih hrest S
    | push s r => exact absurd hv (h1 x (List.mem_cons_self x rest) s r)

theorem processEntries_append (L : Snapshot) (ts : Int) (a b : List PriceEntry) :
    ∀ st : LoopState, processEntries L ts st (a ++ b) =
      match processEntries L ts st a with
      | .error err => .error err
      | .ok st1 => processEntries L ts st1 b := by
  induction a with
  | nil => intro st; rfl
  | cons x rest ih =>
    intro st
    simp only [List.cons_append, processEntries]
    cases processEntry L ts st x with
    | error err => rfl
    | ok st1 => exact ih st1

theorem lastAmount_of_getOwn (L : Snapshot) (e : PriceEntry) (a : JSNumber)
    (h : L.getOwn e.referenceSymbol = some (.number a)) : lastAmount L e = .number a := by
  unfold lastAmount Snapshot.get
  rw [h]
  rfl

theorem lastAmount_congr (L L1 : Snapshot) (e : PriceEntry)
    (h : L1.getOwn e.referenceSymbol = L.getOwn e.referenceSymbol) :
    lastAmount L1 e = lastAmount L e := by
  unfold lastAmount
  rw [Snapshot.get_congr L L1 e.referenceSymbol h]

theorem lastAmount_of_absent (L : Snapshot) (e : PriceEntry)
    (hk : e.referenceSymbol ∉ objectPrototypeKeys) :
    lastAmount L e = .number (storedNumber (L.getOwn e.referenceSymbol)) := by
  unfold lastAmount Snapshot.get
  cases h : L.getOwn e.referenceSymbol with
  | some a => cases a <;> rfl
  | none => simp [hk, nullish, storedNumber]

theorem Snapshot.getOwn_viaJSON (m : Snapshot) (k : String) :
    m.viaJSON.getOwn k = (m.getOwn k).map SnapValue.viaJSON := by
  induction m with
  | nil => rfl
  | cons p rest ih =>
    have hc : Snapshot.viaJSON (p :: rest) = (p.1, p.2.viaJSON) :: Snapshot.viaJSON rest := rfl
    rw [hc, Snapshot.getOwn_cons, Snapshot.getOwn_cons]
    by_cases hk : k = p.1
    · simp [hk]
    · simp [hk, ih]

/-! ## Lemmas on the cycle -/

theorem cycle_of_fetch_error (env : Env) (files : Files) (err : JSError)
    (h : env.fetch = .error err) :
    fetchAndStorePrices env files = .ok { files := files, ops := [], caught := some err } := by
  unfold fetchAndStorePrices
  rw [h]

theorem cycle_of_loop_error (env : Env) (files : Files) (fresh : List PriceEntry)
    (err : JSError) (h : env.fetch = .ok fresh)
    (hl : processEntries (loadLastPrices files) env.now
      { toAppend := [], newSnapshot := loadLastPrices files } fresh = .error err) :
    fetchAndStorePrices env files = .ok { files := files, ops := [], caught := some err } := by
  unfold fetchAndStorePrices
  rw [h]
  simp only []
  rw [hl]

theorem cycle_of_loop_ok (env : Env) (files : Files) (fresh : List PriceEntry)
    (st : LoopState) (h : env.fetch = .ok fresh)
    (hl : processEntries (loadLastPrices files) env.now
      { toAppend := [], newSnapshot := loadLastPrices files } fresh = .ok st) :
    fetchAndStorePrices env files =
      if st.toAppend.length = 0 then .ok { files := files, ops := [], caught := none }
      else .ok (writeChanges env files st) := by
  unfold fetchAndStorePrices
  rw [h]
  simp only []
  rw [hl]

theorem writeChanges_lastPrices (env : Env) (files : Files) (st : LoopState) :
    (writeChanges env files st).files.lastPrices =
      if (files.prices.isSome || env.createOk) && env.appendOk && env.saveOk
      then some (saveLastPrices st.newSnapshot) else files.lastPrices := by
  unfold writeChanges
  cases files.prices <;> cases env.createOk <;> cases env.appendOk <;> cases env.saveOk <;> rfl

theorem writeChanges_all_ok (files : Files) (fresh : List PriceEntry) (now : Int)
    (st : LoopState) :
    writeChanges (Env.writesOk fresh now) files st =
      { files := { prices := some (files.prices.getD [] ++ blobOf st.toAppend),
                   lastPrices := some (saveLastPrices st.newSnapshot) },
        ops := (if files.prices.isSome then [] else [.createLog]) ++
          [.appendLog (blobOf st.toAppend), .writeSnapshot (saveLastPrices st.newSnapshot)],
        caught := none } := by
  unfold writeChanges Env.writesOk
  cases files with
  | mk prices lastPrices => cases prices <;> rfl

/-- When some entry of the list has a failing verdict, the loop throws. -/
theorem processEntries_error_of_fail (L : Snapshot) (ts : Int) (es : List PriceEntry)
    (st : LoopState) (e : PriceEntry) (err : JSError) (he : e ∈ es)
    (hv : verdict L e = .fail err) : ∃ err1, processEntries L ts st es = .error err1 := by
  cases h : processEntries L ts st es with
  | error err1 => exact ⟨err1, rfl⟩
  | ok st1 => exact absurd hv (no_fail_of_processEntries_ok L ts es st st1 h e he err)

theorem processEntries_of_all_same (L : Snapshot) (ts : Int) (es : List PriceEntry)
    (st : LoopState) (h : ∀ e ∈ es, verdict L e = .same) :
    processEntries L ts st es = .ok st := by
  have hnf : ∀ e ∈ es, ∀ err, verdict L e ≠ .fail err := by
    intro e he err hv
    rw [h e he] at hv
    cases hv
  have hb : batchOf L ts es = [] := by
    rw [batchOf_eq_nil_iff]
    intro e he s r hv
    rw [h e he] at hv
    cases hv
  rw [processEntries_of_no_fail L ts es st hnf, hb, snapshotOf_of_batch_nil L ts es hb]
  simp

theorem cycle_of_all_same (env : Env) (files : Files) (fresh : List PriceEntry)
    (hf : env.fetch = .ok fresh) (h : ∀ e ∈ fresh, verdict (loadLastPrices files) e = .same) :
    fetchAndStorePrices env files = .ok { files := files, ops := [], caught := none } := by
  rw [cycle_of_loop_ok env files fresh _ hf (processEntries_of_all_same _ _ _ _ h)]
  rfl

theorem symbols_append_cons (pre post : List PriceEntry) (e : PriceEntry) :
    symbols (pre ++ e :: post) = symbols pre ++ e.referenceSymbol :: symbols post := by
  simp [symbols]

theorem mem_symbols (es : List PriceEntry) (x : PriceEntry) (hx : x ∈ es) :
    x.referenceSymbol ∈ symbols es :=
  List.mem_map_of_mem _ hx

/-- How the snapshot file can look after a cycle: untouched, or the snapshot the
loop built, written after a non-empty batch. -/
theorem cycle_lastPrices_cases (env : Env) (files : Files) (o : Outcome)
    (h : fetchAndStorePrices env files = .ok o) :
    o.files.lastPrices = files.lastPrices ∨
    ∃ fresh, env.fetch = .ok fresh ∧
      (∀ e ∈ fresh, ∀ err, verdict (loadLastPrices files) e ≠ .fail err) ∧
      o.files.lastPrices =
        some (saveLastPrices
          (snapshotOf (loadLastPrices files) (loadLastPrices files) fresh)) := by
  cases hf : env.fetch with
  | error err =>
    rw [cycle_of_fetch_error env files err hf] at h
    cases h
    exact Or.inl rfl
  | ok fresh =>
    cases hl : processEntries (loadLastPrices files) env.now
        { toAppend := [], newSnapshot := loadLastPrices files } fresh with
    | error err =>
      rw [cycle_of_loop_error env files fresh err hf hl] at h
      cases h
      exact Or.inl rfl
    | ok st =>
      rw [cycle_of_loop_ok env files fresh st hf hl] at h
      by_cases hz : st.toAppend.length = 0
      · rw [if_pos hz] at h
        cases h
        exact Or.inl rfl
      · rw [if_neg hz] at h
        cases h
        rw [writeChanges_lastPrices]
        split
        · right
          refine ⟨fresh, rfl, no_fail_of_processEntries_ok _ _ _ _ _ hl, ?_⟩
          rw [processEntries_ok_eq _ _ _ _ _ hl]
        · exact Or.inl rfl

theorem resourceEnum_get_of_mem_names :
    ∀ k ∈ ResourceEnum.names, ∃ n : Int, (k, n) ∈ ResourceEnum.table ∧
      ResourceEnum.get k = .ok (.num n) := by
  intro k hk
  unfold ResourceEnum.names at hk
  obtain ⟨p, hp, rfl⟩ := List.mem_map.mp hk
  refine ⟨p.2, hp, ?_⟩
  revert p
  decide

theorem recommendationEnum_get_of_mem_names :
    ∀ k ∈ RecommendationEnum.names, ∃ n : Int, (k, n) ∈ RecommendationEnum.table ∧
      RecommendationEnum.get k = .ok (.num n) := by
  intro k hk
  unfold RecommendationEnum.names at hk
  obtain ⟨p, hp, rfl⟩ := List.mem_map.mp hk
  refine ⟨p.2, hp, ?_⟩
  revert p
  decide

theorem loadLastPrices_of_some (files : Files) (m : Snapshot)
    (h : files.lastPrices = some m) : loadLastPrices files = m := by
  unfold loadLastPrices
  rw [h]

theorem loadLastPrices_congr (files files1 : Files)
    (h : files1.lastPrices = files.lastPrices) : loadLastPrices files1 = loadLastPrices files := by
  unfold loadLastPrices
  rw [h]

theorem lastAmount_eq_of_symbol_eq (L : Snapshot) (x e : PriceEntry)
    (h : x.referenceSymbol = e.referenceSymbol) : lastAmount L x = lastAmount L e := by
  unfold lastAmount
  rw [h]

theorem recordOf_isSome_iff (L : Snapshot) (ts : Int) (e : PriceEntry) :
    (recordOf L ts e).isSome = true ↔ ∃ s r, verdict L e = .push s r := by
  unfold recordOf
  cases verdict L e <;> simp

theorem recordOf_eq_none_of_same (L : Snapshot) (ts : Int) (e : PriceEntry)
    (h : verdict L e = .same) : recordOf L ts e = none := by
  unfold recordOf
  rw [h]

/-- When the loop completes, every changed entry with a symbol of the
`ResourceEnum` table has its record in `toAppend`, carrying the id of the
symbol, the new amount and the timestamp of the cycle. -/
theorem changed_known_entry_recorded (L : Snapshot) (ts : Int) (fresh : List PriceEntry)
    (st : LoopState) (e : PriceEntry)
    (hl : processEntries L ts { toAppend := [], newSnapshot := L } fresh = .ok st)
    (he : e ∈ fresh) (hchanged : lastAmount L e ≠ .number e.amount)
    (hknown : e.referenceSymbol ∈ ResourceEnum.names) :
    ∃ n r, (e.referenceSymbol, n) ∈ ResourceEnum.table ∧ r ≠ JSVal.undefined ∧
      recordOf L ts e = some { s := .num n, a := e.amount, r := r, t := ts } ∧
      ({ s := .num n, a := e.amount, r := r, t := ts } : ChangeRecord) ∈ st.toAppend := by
  obtain ⟨n, hn, hget⟩ := resourceEnum_get_of_mem_names e.referenceSymbol hknown
  have hnofail := no_fail_of_processEntries_ok _ _ _ _ _ hl e he
  have hst := processEntries_ok_eq _ _ _ _ _ hl
  have hpush : ∃ r, r ≠ JSVal.undefined ∧ verdict L e = .push (.num n) r := by
    cases hr : RecommendationEnum.get e.recommendation with
    | error err =>
      exact absurd ((verdict_fail_iff L e err).mpr
        ⟨hchanged, Or.inr ⟨.num n, hget, Or.inl hr⟩⟩) (hnofail err)
    | ok r =>
      by_cases hu : r = .undefined
      · subst hu
        exact absurd ((verdict_fail_iff L e _).mpr
          ⟨hchanged, Or.inr ⟨.num n, hget, Or.inr ⟨by simp, hr, rfl⟩⟩⟩) (hnofail _)
      · exact ⟨r, hu, (verdict_push_iff L e (.num n) r).mpr
          ⟨hchanged, hget, by simp, hr, hu⟩⟩
  obtain ⟨r, hru, hv⟩ := hpush
  have hrec : recordOf L ts e = some { s := .num n, a := e.amount, r := r, t := ts } := by
    unfold recordOf
    rw [hv]
  refine ⟨n, r, hn, hru, hrec, ?_⟩
  rw [hst]
  simp only [List.nil_append, batchOf]
  exact List.mem_filterMap.mpr ⟨e, he, hrec⟩

/-- An entry whose symbol reads as `undefined` on `ResourceEnum` never pushes a
record. -/
theorem no_push_of_symbol_undefined (L : Snapshot) (e : PriceEntry)
    (h : ResourceEnum.get e.referenceSymbol = .ok .undefined) :
    ∀ s r, verdict L e ≠ .push s r := by
  intro s r hv
  obtain ⟨_, hs, hne, _, _⟩ := (verdict_push_iff L e s r).mp hv
  rw [h] at hs
  cases hs
  exact hne rfl

/-- A changed entry with a symbol of the table whose recommendation reads as
`undefined` makes the whole cycle end in the `catch` block: an error is
reported and no write call is issued. -/
theorem cycle_fails_of_recommendation_undefined (env : Env) (files : Files)
    (fresh : List PriceEntry) (e : PriceEntry) (hf : env.fetch = .ok fresh) (he : e ∈ fresh)
    (hchanged : lastAmount (loadLastPrices files) e ≠ .number e.amount)
    (hknown : e.referenceSymbol ∈ ResourceEnum.names)
    (hrec : RecommendationEnum.get e.recommendation = .ok .undefined) :
    ∃ err, fetchAndStorePrices env files =
      .ok { files := files, ops := [], caught := some err } := by
  obtain ⟨n, _, hget⟩ := resourceEnum_get_of_mem_names e.referenceSymbol hknown
  have hv : verdict (loadLastPrices files) e =
      .fail (.typeError "Assignment to constant variable.") :=
    (verdict_fail_iff _ e _).mpr
      ⟨hchanged, Or.inr ⟨.num n, hget, Or.inr ⟨by simp, hrec, rfl⟩⟩⟩
  obtain ⟨err, herr⟩ := processEntries_error_of_fail (loadLastPrices files) env.now fresh
    { toAppend := [], newSnapshot := loadLastPrices files } e _ he hv
  exact ⟨err, cycle_of_loop_error env files fresh err hf herr⟩

theorem batchOf_timestamp (L : Snapshot) (ts : Int) (es : List PriceEntry) :
    ∀ r ∈ batchOf L ts es, r.t = ts := by
  intro r hr
  unfold batchOf at hr
  obtain ⟨e, _, he⟩ := List.mem_filterMap.mp hr
  unfold recordOf at he
  cases hv : verdict L e with
  | same => rw [hv] at he; cases he
  | fail err => rw [hv] at he; cases he
  | push s1 r1 =>
    rw [hv] at he
    cases he
    rfl

/-- The blob of an `appendFile` call of a cycle is the serialisation of the list
pushed by the loop, and all its lines carry the timestamp of the cycle. -/
theorem appended_batch_eq (env : Env) (files : Files) (fresh : List PriceEntry) (o : Outcome)
    (batch : List LogLine) (hf : env.fetch = .ok fresh)
    (h : fetchAndStorePrices env files = .ok o) (hb : FileOp.appendLog batch ∈ o.ops) :
    batch = blobOf (batchOf (loadLastPrices files) env.now fresh) ∧
      ∀ line ∈ batch, line.t = env.now := by
  have hbatch : batch = blobOf (batchOf (loadLastPrices files) env.now fresh) := by
    cases hl : processEntries (loadLastPrices files) env.now
        { toAppend := [], newSnapshot := loadLastPrices files } fresh with
    | error err =>
      rw [cycle_of_loop_error env files fresh err hf hl] at h
      cases h
      simp at hb
    | ok st =>
      rw [cycle_of_loop_ok env files fresh st hf hl] at h
      have hst := processEntries_ok_eq _ _ _ _ _ hl
      by_cases hz : st.toAppend.length = 0
      · rw [if_pos hz] at h
        cases h
        simp at hb
      · rw [if_neg hz] at h
        cases h
        have hto : st.toAppend = batchOf (loadLastPrices files) env.now fresh := by
          rw [hst]
          simp
        rw [← hto]
        revert hb
        unfold writeChanges
        cases files.prices <;> cases env.createOk <;> cases env.appendOk <;>
          cases env.saveOk <;> simp
  refine ⟨hbatch, ?_⟩
  intro line hline
  rw [hbatch] at hline
  unfold blobOf at hline
  obtain ⟨r, hr, rfl⟩ := List.mem_map.mp hline
  exact batchOf_timestamp _ _ _ r hr

/-- A known symbol whose entry leaves the loop state alone has an unchanged
amount. -/
theorem unchanged_of_same_known (L : Snapshot) (e : PriceEntry)
    (hv : verdict L e = .same) (hknown : e.referenceSymbol ∈ ResourceEnum.names) :
    lastAmount L e = .number e.amount := by
  by_contra hchanged
  obtain ⟨n, _, hget⟩ := resourceEnum_get_of_mem_names e.referenceSymbol hknown
  cases hr : RecommendationEnum.get e.recommendation with
  | error err =>
    have := (verdict_fail_iff L e err).mpr ⟨hchanged, Or.inr ⟨.num n, hget, Or.inl hr⟩⟩
    rw [hv] at this
    cases this
  | ok r =>
    by_cases hu : r = .undefined
    · subst hu
      have := (verdict_fail_iff L e _).mpr
        ⟨hchanged, Or.inr ⟨.num n, hget, Or.inr ⟨by simp, hr, rfl⟩⟩⟩
      rw [hv] at this
      cases this
    · have := (verdict_push_iff L e (.num n) r).mpr ⟨hchanged, hget, by simp, hr, hu⟩
      rw [hv] at this
      cases this

/-- An entry whose symbol and recommendation are both declared by the enums
never makes the loop throw. -/
theorem no_fail_of_known (L : Snapshot) (e : PriceEntry)
    (hknown : e.referenceSymbol ∈ ResourceEnum.names)
    (hrec : e.recommendation ∈ RecommendationEnum.names) :
    ∀ err, verdict L e ≠ .fail err := by
  intro err hv
  obtain ⟨n, _, hget⟩ := resourceEnum_get_of_mem_names e.referenceSymbol hknown
  obtain ⟨m, _, hgetr⟩ := recommendationEnum_get_of_mem_names e.recommendation hrec
  obtain ⟨_, h⟩ := (verdict_fail_iff L e err).mp hv
  rcases h with h | ⟨s, _, h | ⟨_, h, _⟩⟩
  · rw [hget] at h; cases h
  · rw [hgetr] at h; cases h
  · rw [hgetr] at h; cases h

/-- On a list with pairwise distinct symbols, the snapshot built by the loop
holds the new amount for a pushed entry (other than `__proto__`) and the old
own value for any other entry. -/
theorem snapshotOf_getOwn_nodup (L : Snapshot) (fresh : List PriceEntry)
    (hnodup : (symbols fresh).Nodup) (e : PriceEntry) (he : e ∈ fresh) :
    (∀ s r, verdict L e = .push s r → e.referenceSymbol ≠ "__proto__" →
      (snapshotOf L L fresh).getOwn e.referenceSymbol = some (.number e.amount)) ∧
    ((∀ s r, verdict L e ≠ .push s r) →
      (snapshotOf L L fresh).getOwn e.referenceSymbol = L.getOwn e.referenceSymbol) := by
  obtain ⟨pre, post, rfl⟩ := List.append_of_mem he
  rw [symbols_append_cons] at hnodup
  have hparts := List.nodup_append.mp hnodup
  have hcons := List.nodup_cons.mp hparts.2.1
  have hpre : ∀ x ∈ pre, x.referenceSymbol ≠ e.referenceSymbol := by
    intro x hx heq
    exact hparts.2.2 (mem_symbols pre x hx) (by rw [heq]; exact List.mem_cons_self _ _)
  have hpost : ∀ x ∈ post, x.referenceSymbol ≠ e.referenceSymbol := by
    intro x hx heq
    exact hcons.1 (by rw [← heq]; exact mem_symbols post x hx)
  constructor
  · intro s r hv hk
    exact snapshotOf_getOwn_last L L pre post e s r hv (Or.inl hk)
      (fun x hx _ _ _ => hpost x hx)
  · intro hnp
    apply snapshotOf_getOwn_frame
    intro x hx s r hpush
    rcases List.mem_append.mp hx with h1 | h1
    · exact hpre x h1
    · rcases List.mem_cons.mp h1 with rfl | h2
      · exact absurd hpush (hnp s r)
      · exact hpost x h2

theorem Snapshot.getOwn_set_isSome (m : Snapshot) (k k1 : String) (v : SnapValue)
    (h : (m.getOwn k1).isSome = true) : ((m.set k v).getOwn k1).isSome = true := by
  by_cases hk : k1 = k
  · subst hk
    rw [Snapshot.getOwn_set_self m k1 v (Or.inr h)]
    rfl
  · rw [Snapshot.getOwn_set_other m k k1 v hk]
    exact h

/-- A key the accumulator already holds is still held by the snapshot the loop
builds from it. -/
theorem snapshotOf_getOwn_isSome (L : Snapshot) (k : String) (es : List PriceEntry) :
    ∀ S : Snapshot, (S.getOwn k).isSome = true →
      ((snapshotOf L S es).getOwn k).isSome = true := by
  induction es with
  | nil =>
    intro S h
    exact h
  | cons x rest ih =>
    intro S h
    unfold snapshotOf
    cases verdict L x with
    | same => exact ih S h
    | fail err => exact ih S h
    | push s r => exact ih _ (Snapshot.getOwn_set_isSome S _ k _ h)

/-- A finite number is written and read back as it is. -/
theorem SnapValue.viaJSON_number_of_finite (a : JSNumber) (h : a.isFinite = true) :
    SnapValue.viaJSON (.number a) = .number a := by
  cases a with
  | finite q => rfl
  | posInfinity => simp [JSNumber.isFinite] at h
  | negInfinity => simp [JSNumber.isFinite] at h

/-- The number a baseline holds for a symbol is not 0 only when the baseline
holds that very number. -/
theorem getOwn_of_storedNumber (v : Option SnapValue) (a : JSNumber)
    (h : storedNumber v = a) (hcond : a ≠ 0 ∨ ∃ n, v = some (.number n)) :
    v = some (.number a) := by
  cases v with
  | none =>
    rcases hcond with h0 | ⟨n, hn⟩
    · exact absurd h.symm h0
    · cases hn
  | some w =>
    cases w with
    | null =>
      rcases hcond with h0 | ⟨n, hn⟩
      · exact absurd h.symm h0
      · cases hn
    | number n =>
      simp only [storedNumber] at h
      rw [h]

/-- When the pushed entries with symbol `k` all carry the amount `a` and there is
one, the snapshot built by the loop holds `a` for `k` (for `__proto__` only when
the key is already an own key). -/
theorem snapshotOf_getOwn_of_push (L : Snapshot) (k : String) (a : JSNumber)
    (es : List PriceEntry) :
    ∀ S : Snapshot, (k ≠ "__proto__" ∨ (S.getOwn k).isSome = true) →
      (∀ x ∈ es, (∃ s r, verdict L x = .push s r) → x.referenceSymbol = k → x.amount = a) →
      (∃ x ∈ es, (∃ s r, verdict L x = .push s r) ∧ x.referenceSymbol = k) →
      (snapshotOf L S es).getOwn k = some (.number a) := by
  induction es with
  | nil =>
    intro S _ _ hex
    obtain ⟨x, hx, _⟩ := hex
    simp at hx
  | cons x rest ih =>
    intro S hk hamt hex
    have hamt1 : ∀ y ∈ rest, (∃ s r, verdict L y = .push s r) → y.referenceSymbol = k →
        y.amount = a := fun y hy => hamt y (List.mem_cons_of_mem x hy)
    unfold snapshotOf
    cases hv : verdict L x with
    | same =>
      simp only []
      obtain ⟨y, hy, ⟨s1, r1, hp⟩, hsym⟩ := hex
      rcases List.mem_cons.mp hy with rfl | hy1
      · rw [hv] at hp; cases hp
      · exact ih S hk hamt1 ⟨y, hy1, ⟨s1, r1, hp⟩, hsym⟩
    | fail err =>
      simp only []
      obtain ⟨y, hy, ⟨s1, r1, hp⟩, hsym⟩ := hex
      rcases List.mem_cons.mp hy with rfl | hy1
      · rw [hv] at hp; cases hp
      · exact ih S hk hamt1 ⟨y, hy1, ⟨s1, r1, hp⟩, hsym⟩
    | push s r =>
      simp only []
      have hk1 : k ≠ "__proto__" ∨
          ((S.set x.referenceSymbol (.number x.amount)).getOwn k).isSome = true := by
        rcases hk with h | h
        · exact Or.inl h
        · exact Or.inr (Snapshot.getOwn_set_isSome S _ k _ h)
      by_cases hex2 : ∃ y ∈ rest, (∃ s r, verdict L y = .push s r) ∧ y.referenceSymbol = k
      · exact ih _ hk1 hamt1 hex2
      · have hframe := snapshotOf_getOwn_frame L k rest
          (S.set x.referenceSymbol (.number x.amount))
          (fun y hy s1 r1 hp heq => hex2 ⟨y, hy, ⟨s1, r1, hp⟩, heq⟩)
        rw [hframe]
        obtain ⟨y, hy, hpy, hsym⟩ := hex
        rcases List.mem_cons.mp hy with rfl | hy1
        · have ha := hamt y (List.mem_cons_self y rest) hpy hsym
          subst hsym
          rw [← ha]
          exact Snapshot.getOwn_set_self S _ _ hk
        · exact absurd ⟨y, hy1, hpy, hsym⟩ hex2

theorem verdict_same_iff (L : Snapshot) (e : PriceEntry) :
    verdict L e = .same ↔
      (lastAmount L e = .number e.amount ∨
        (ResourceEnum.get e.referenceSymbol = .ok .undefined ∧
          ∃ r, RecommendationEnum.get e.recommendation = .ok r)) := by
  unfold verdict processEntry
  by_cases hc : lastAmount L e = .number e.amount
  · simp [hc]
  · simp only [ne_eq, hc, not_false_eq_true, if_true, false_or]
    cases ResourceEnum.get e.referenceSymbol with
    | error err => simp
    | ok symbolId =>
      cases RecommendationEnum.get e.recommendation with
      | error err => simp
      | ok recommendationId =>
        by_cases hs : symbolId = .undefined
        · subst hs
          simp
        · by_cases hr : recommendationId = .undefined
          · subst hr
            simp [hs]
          · simp [hs, hr]

/-- An unchanged finite amount is still unchanged against the snapshot as it
reads back from the file. -/
theorem lastAmount_after_save (L S : Snapshot) (e : PriceEntry)
    (h : S.getOwn e.referenceSymbol = (L.getOwn e.referenceSymbol).map SnapValue.viaJSON)
    (hun : lastAmount L e = .number e.amount) (hfin : e.amount.isFinite = true) :
    lastAmount S e = .number e.amount := by
  unfold lastAmount Snapshot.get at hun ⊢
  rw [h]
  cases hL : L.getOwn e.referenceSymbol with
  | none =>
    rw [hL] at hun
    exact hun
  | some v =>
    rw [hL] at hun
    cases v with
    | null => exact hun
    | number n =>
      simp only [nullish, ReadValue.number.injEq] at hun
      rw [hun]
      cases ha : e.amount with
      | finite q => rfl
      | posInfinity => rw [ha] at hfin; simp [JSNumber.isFinite] at hfin
      | negInfinity => rw [ha] at hfin; simp [JSNumber.isFinite] at hfin

/-- After a loop without failure over a list of finite amounts in which entries
with one symbol carry one amount, every entry leaves the loop state alone
against the snapshot as saved. -/
theorem verdict_same_after_save (L : Snapshot) (fresh : List PriceEntry)
    (hamt : ∀ x ∈ fresh, ∀ y ∈ fresh, x.referenceSymbol = y.referenceSymbol →
      x.amount = y.amount)
    (hproto : "__proto__" ∈ symbols fresh → (L.getOwn "__proto__").isSome = true)
    (hfin : ∀ e ∈ fresh, e.amount.isFinite = true)
    (hnofail : ∀ e ∈ fresh, ∀ err, verdict L e ≠ .fail err) :
    ∀ e ∈ fresh, verdict (saveLastPrices (snapshotOf L L fresh)) e = .same := by
  intro e he
  have hsaved : (saveLastPrices (snapshotOf L L fresh)).getOwn e.referenceSymbol =
      ((snapshotOf L L fresh).getOwn e.referenceSymbol).map SnapValue.viaJSON :=
    Snapshot.getOwn_viaJSON _ _
  by_cases hex : ∃ x ∈ fresh, (∃ s r, verdict L x = .push s r) ∧
      x.referenceSymbol = e.referenceSymbol
  · have hk : e.referenceSymbol ≠ "__proto__" ∨
        (L.getOwn e.referenceSymbol).isSome = true := by
      by_cases hp : e.referenceSymbol = "__proto__"
      · right
        rw [hp]
        exact hproto (by rw [← hp]; exact mem_symbols fresh e he)
      · exact Or.inl hp
    have hown := snapshotOf_getOwn_of_push L e.referenceSymbol e.amount fresh L hk
      (fun x hx _ hsym => hamt x hx e he hsym) hex
    rw [hown] at hsaved
    have hfe := hfin e he
    cases ha : e.amount with
    | finite q =>
      rw [ha] at hsaved
      exact verdict_of_unchanged _ e
        (by rw [ha]; exact lastAmount_of_getOwn _ e (.finite q) hsaved)
    | posInfinity => rw [ha] at hfe; simp [JSNumber.isFinite] at hfe
    | negInfinity => rw [ha] at hfe; simp [JSNumber.isFinite] at hfe
  · have hframe := snapshotOf_getOwn_frame L e.referenceSymbol fresh L
      (fun x hx s r hp heq => hex ⟨x, hx, ⟨s, r, hp⟩, heq⟩)
    rw [hframe] at hsaved
    have hv : verdict L e = .same := by
      cases hv : verdict L e with
      | same => rfl
      | fail err => exact absurd hv (hnofail e he err)
      | push s r => exact absurd ⟨e, he, ⟨s, r, hv⟩, rfl⟩ hex
    rcases (verdict_same_iff L e).mp hv with hun | hskip
    · exact verdict_of_unchanged _ e (lastAmount_after_save L _ e hsaved hun (hfin e he))
    · exact (verdict_same_iff _ e).mpr (Or.inr hskip)

/-- A first cycle whose writes succeed and whose loop does not throw: it ends
without error, and either pushes nothing and leaves the files alone, or saves
the snapshot built by the loop. -/
theorem first_run_writesOk (files : Files) (fresh : List PriceEntry) (now : Int)
    (hnofail : ∀ e ∈ fresh, ∀ err, verdict (loadLastPrices files) e ≠ .fail err) :
    ∃ o, fetchAndStorePrices (Env.writesOk fresh now) files = .ok o ∧ o.caught = none ∧
      ((batchOf (loadLastPrices files) now fresh = [] ∧ o.files = files) ∨
       (batchOf (loadLastPrices files) now fresh ≠ [] ∧
        loadLastPrices o.files =
          saveLastPrices (snapshotOf (loadLastPrices files) (loadLastPrices files) fresh))) := by
  have hl := processEntries_of_no_fail (loadLastPrices files) now fresh
    { toAppend := [], newSnapshot := loadLastPrices files } hnofail
  have hrun := cycle_of_loop_ok (Env.writesOk fresh now) files fresh _ rfl hl
  simp only [List.nil_append] at hrun
  by_cases hz : (batchOf (loadLastPrices files) now fresh).length = 0
  · rw [if_pos hz] at hrun
    exact ⟨_, hrun, rfl, Or.inl ⟨List.length_eq_zero.mp hz, rfl⟩⟩
  · rw [if_neg hz, writeChanges_all_ok] at hrun
    exact ⟨_, hrun, rfl, Or.inr ⟨fun h => hz (by rw [h]; rfl), rfl⟩⟩

/-- After such a first cycle over finite amounts, entries with one symbol
carrying one amount, every entry leaves the loop state alone. -/
theorem first_run_then_all_same (files : Files) (fresh : List PriceEntry) (now : Int)
    (hamt : ∀ x ∈ fresh, ∀ y ∈ fresh, x.referenceSymbol = y.referenceSymbol →
      x.amount = y.amount)
    (hproto : "__proto__" ∈ symbols fresh →
      ((loadLastPrices files).getOwn "__proto__").isSome = true)
    (hfin : ∀ e ∈ fresh, e.amount.isFinite = true)
    (hnofail : ∀ e ∈ fresh, ∀ err, verdict (loadLastPrices files) e ≠ .fail err) :
    ∃ o, fetchAndStorePrices (Env.writesOk fresh now) files = .ok o ∧ o.caught = none ∧
      (∀ e ∈ fresh, verdict (loadLastPrices o.files) e = .same) ∧
      ((batchOf (loadLastPrices files) now fresh = [] ∧ o.files = files) ∨
       (batchOf (loadLastPrices files) now fresh ≠ [] ∧
        loadLastPrices o.files =
          saveLastPrices (snapshotOf (loadLastPrices files) (loadLastPrices files) fresh))) := by
  obtain ⟨o, hrun, hcaught, hcase⟩ := first_run_writesOk files fresh now hnofail
  refine ⟨o, hrun, hcaught, ?_, hcase⟩
  rcases hcase with ⟨hb, hfiles⟩ | ⟨_, hload⟩
  · intro e he
    rw [hfiles]
    cases hv : verdict (loadLastPrices files) e with
    | same => rfl
    | fail err => exact absurd hv (hnofail e he err)
    | push s r => exact absurd hv ((batchOf_eq_nil_iff _ _ _).mp hb e he s r)
  · rw [hload]
    exact verdict_same_after_save _ fresh hamt hproto hfin hnofail

theorem amounts_consistent_of_nodup (fresh : List PriceEntry)
    (hnodup : (symbols fresh).Nodup) :
    ∀ x ∈ fresh, ∀ y ∈ fresh, x.referenceSymbol = y.referenceSymbol → x.amount = y.amount := by
  intro x hx y hy hsym
  have hinj := List.inj_on_of_nodup_map hnodup hx hy hsym
  rw [hinj]

/-! ## Lemmas on the credential manager -/

theorem isTokenValid_eq_true_iff (tm : TokenManager) (now : Int) :
    tm.isTokenValid now = true ↔
      ((∃ tok, tm.accessToken = some tok ∧ tok ≠ "") ∧
        ∃ ms, tm.expiresAt = some (.valid ms) ∧ now < ms) := by
  unfold TokenManager.isTokenValid falsyString dateBefore
  cases hx : tm.expiresAt with
  | none => simp
  | some d =>
    cases ha : tm.accessToken with
    | none => simp
    | some tok =>
      by_cases ht : tok = ""
      · simp [ht]
      · cases d with
        | valid ms => simp [ht]
        | invalid => simp [ht]

theorem ofTime_eq_valid_iff (v : Option Int) (ms : Int) :
    JSDate.ofTime v = .valid ms ↔ v = some ms ∧ inDateRange ms := by
  unfold JSDate.ofTime inDateRange
  cases v with
  | none => simp
  | some w =>
    by_cases h : -maxTimeValue ≤ w ∧ w ≤ maxTimeValue
    · simp only [h, and_self, if_true, JSDate.valid.injEq, Option.some.injEq]
      constructor
      · intro hw; subst hw; exact ⟨rfl, h⟩
      · intro hw; exact hw.1
    · simp only [h, if_false, Option.some.injEq]
      constructor
      · intro hw; cases hw
      · rintro ⟨hw, hr⟩
        subst hw
        exact absurd hr h

theorem refresh_success_manager (tm : TokenManager) (R : TokenResponse) (t0 : Int) :
    (tm.refresh (.success (some R)) t0).manager =
      { accessToken := R.access_token, expiresIn := R.expires_in, tokenType := R.token_type,
        refreshToken := R.refresh_token, idToken := R.id_token, userId := R.user_id,
        projectId := R.project_id,
        expiresAt := some (JSDate.ofTime (R.expires_in.map (expiryInstant t0))) } := by
  unfold TokenManager.refresh expiryInstant
  cases R with
  | mk access_token expires_in token_type refresh_token id_token user_id project_id =>
    cases expires_in <;> rfl

theorem refresh_success_valid_iff (tm : TokenManager) (R : TokenResponse) (t0 : Int) :
    (tm.refresh (.success (some R)) t0).manager.isTokenValid t0 = true ↔
      ((∃ tok, R.access_token = some tok ∧ tok ≠ "") ∧
        ∃ n, R.expires_in = some n ∧ TokenManager.TOKEN_BUFFER_SECONDS < n ∧
          inDateRange (expiryInstant t0 n)) := by
  rw [isTokenValid_eq_true_iff, refresh_success_manager]
  simp only [Option.some.injEq]
  constructor
  · rintro ⟨htok, ms, hms, hlt⟩
    refine ⟨htok, ?_⟩
    obtain ⟨hv, hr⟩ := (ofTime_eq_valid_iff _ ms).mp hms
    cases hn : R.expires_in with
    | none => rw [hn] at hv; cases hv
    | some n =>
      rw [hn] at hv
      simp only [Option.map_some', Option.some.injEq] at hv
      subst hv
      refine ⟨n, rfl, ?_, hr⟩
      unfold expiryInstant at hlt
      unfold TokenManager.TOKEN_BUFFER_SECONDS at hlt ⊢
      omega
  · rintro ⟨htok, n, hn, hgt, hr⟩
    refine ⟨htok, expiryInstant t0 n, ?_, ?_⟩
    · rw [hn]
      exact (ofTime_eq_valid_iff _ _).mpr ⟨rfl, hr⟩
    · unfold expiryInstant
      unfold TokenManager.TOKEN_BUFFER_SECONDS at hgt ⊢
      omega

theorem refresh_request (tm : TokenManager) (reply : TokenReply) (now : Int) :
    (tm.refresh reply now).request =
      { grant_type := "refresh_token", refresh_token := tm.refreshToken } := by
  unfold TokenManager.refresh
  cases reply with
  | noResponse => rfl
  | errorStatus status message => rfl
  | otherError message => rfl
  | success data => cases data <;> rfl

theorem getValidToken_of_valid (tm : TokenManager) (now : Int) (reply : TokenReply)
    (replyAt : Int) (h : tm.isTokenValid now = true) :
    tm.getValidToken now reply replyAt =
      { manager := tm, result := .ok tm.accessToken, requests := [] } := by
  unfold TokenManager.getValidToken
  simp [h]

theorem getValidToken_of_invalid (tm : TokenManager) (now : Int) (reply : TokenReply)
    (replyAt : Int) (h : tm.isTokenValid now = false) :
    tm.getValidToken now reply replyAt =
      match (tm.refresh reply replyAt).result with
      | .error e =>
        { manager := (tm.refresh reply replyAt).manager, result := .error e,
          requests := [(tm.refresh reply replyAt).request] }
      | .ok _ =>
        { manager := (tm.refresh reply replyAt).manager,
          result := .ok (tm.refresh reply replyAt).manager.accessToken,
          requests := [(tm.refresh reply replyAt).request] } := by
  unfold TokenManager.getValidToken
  simp [h]

theorem refresh_result_ok_iff (tm : TokenManager) (reply : TokenReply) (now : Int)
    (R : TokenResponse) :
    (tm.refresh reply now).result = .ok R ↔ reply = .success (some R) := by
  unfold TokenManager.refresh
  cases reply with
  | noResponse => simp
  | errorStatus status message => simp
  | otherError message => simp
  | success data =>
    cases data with
    | none => simp
    | some d => simp

/-! ## Lemmas on the price feed client -/

theorem getCurrentPrices_of_token_error (tm : TokenManager) (now : Int)
    (tokenReply : TokenReply) (replyAt : Int) (feedReply : FeedReply) (e : TokenError)
    (h : (tm.getValidToken now tokenReply replyAt).result = .error e) :
    getCurrentPrices tm now tokenReply replyAt feedReply =
      { manager := (tm.getValidToken now tokenReply replyAt).manager,
        result := .error (.other e.message),
        tokenRequests := (tm.getValidToken now tokenReply replyAt).requests,
        requests := [] } := by
  unfold getCurrentPrices
  simp only []
  rw [h]

theorem getCurrentPrices_of_token_ok (tm : TokenManager) (now : Int)
    (tokenReply : TokenReply) (replyAt : Int) (feedReply : FeedReply) (token : Option String)
    (h : (tm.getValidToken now tokenReply replyAt).result = .ok token) :
    getCurrentPrices tm now tokenReply replyAt feedReply =
      { manager := (tm.getValidToken now tokenReply replyAt).manager,
        result :=
          (match feedReply with
           | .success .nullish =>
             .error (.other "Cannot read properties of undefined (reading errors)")
           | .success (.value (.truthy serialized) _) =>
             .error (.other ("GraphQL errors: " ++ serialized))
           | .success (.value _ .nullish) =>
             .error (.other "Cannot read properties of undefined (reading exchangePriceList)")
           | .success (.value _ (.value exchangePriceList)) => .ok exchangePriceList
           | .errorStatus status message =>
             .error (.failed status (orDefault message "Exchange price request failed"))
           | .noResponse => .error .network
           | .otherError message => .error (.other message)),
        tokenRequests := (tm.getValidToken now tokenReply replyAt).requests,
        requests := [{ authorization := authorizationHeader token }] } := by
  unfold getCurrentPrices
  simp only []
  rw [h]

/-! ## Claims -/

/-- C1 (the code departs from the claim): on an empty baseline, the fresh list
`[{WATER, 5, "STRONG_BUY"}]` has a changed amount, a symbol of the `ResourceEnum`
table and a recommendation outside the `RecommendationEnum` table; the cycle
then throws a `TypeError` on the assignment to the `const recommendationId`, the
`catch` block reports it, no record is appended and no file is written. -/
theorem C1_unknown_recommendation_throws :
    "WATER" ∈ ResourceEnum.names ∧ "STRONG_BUY" ∉ RecommendationEnum.names ∧
    lastAmount (loadLastPrices ⟨some [], some []⟩) ⟨"WATER", 5, "STRONG_BUY"⟩ ≠ .number 5 ∧
    fetchAndStorePrices (Env.writesOk [⟨"WATER", 5, "STRONG_BUY"⟩] 1000) ⟨some [], some []⟩ =
      .ok { files := ⟨some [], some []⟩, ops := [],
            caught := some (.typeError "Assignment to constant variable.") } := by
  decide

/-- C2 (the code departs from the claim): every name of both tables reads as its
id, but no id reads as a name: `ResourceEnum[id]` and `RecommendationEnum[id]`
are `undefined` for every pair, because the static block of `BidirectionalEnum`
runs once on `BidirectionalEnum` itself, which has no entries. -/
theorem C2_reverse_lookup_undefined :
    (∀ p ∈ ResourceEnum.table,
      ResourceEnum.get p.1 = .ok (.num p.2) ∧
      ResourceEnum.get (propertyKey p.2) = .ok .undefined) ∧
    (∀ p ∈ RecommendationEnum.table,
      RecommendationEnum.get p.1 = .ok (.num p.2) ∧
      RecommendationEnum.get (propertyKey p.2) = .ok .undefined) ∧
    BidirectionalEnum = { name := "BidirectionalEnum", statics := [], frozen := true } := by
  decide

/-- C3 (counterexample): four runs of two cycles on one fresh list in which
the second cycle still appends.  (1) `WATER` listed twice, 5 then 7, on an
empty baseline: the first cycle leaves `WATER: 7`, the second appends a line
for the entry of amount 5.  (2) The symbol `__proto__`: the assignment to the
snapshot is ignored, the baseline stays empty and the second cycle appends
again.  (3) The snapshot write of the first cycle fails: the baseline stays
empty and the second cycle appends again.  (4) `WATER` with an infinite amount
(the feed literal `1e999`): the first cycle saves `WATER: null`, which the
second reads as 0, and the second cycle appends again. -/
theorem C3_second_run_appends :
    runTwice (Env.writesOk [⟨"WATER", 5, "BUY"⟩, ⟨"WATER", 7, "BUY"⟩] 1000)
        (Env.writesOk [⟨"WATER", 5, "BUY"⟩, ⟨"WATER", 7, "BUY"⟩] 2000) ⟨some [], some []⟩ =
      .ok ({ files := ⟨some [⟨some (.number 2), .number 5, some (.number 1), 1000⟩,
                             ⟨some (.number 2), .number 7, some (.number 1), 1000⟩],
                       some [("WATER", 7)]⟩,
             ops := [.appendLog [⟨some (.number 2), .number 5, some (.number 1), 1000⟩,
                                 ⟨some (.number 2), .number 7, some (.number 1), 1000⟩],
                     .writeSnapshot [("WATER", 7)]],
             caught := none },
           { files := ⟨some [⟨some (.number 2), .number 5, some (.number 1), 1000⟩,
                             ⟨some (.number 2), .number 7, some (.number 1), 1000⟩,
                             ⟨some (.number 2), .number 5, some (.number 1), 2000⟩],
                       some [("WATER", 5)]⟩,
             ops := [.appendLog [⟨some (.number 2), .number 5, some (.number 1), 2000⟩],
                     .writeSnapshot [("WATER", 5)]],
             caught := none }) ∧
    runTwice (Env.writesOk [⟨"__proto__", 5, "BUY"⟩] 1000)
        (Env.writesOk [⟨"__proto__", 5, "BUY"⟩] 2000) ⟨some [], some []⟩ =
      .ok ({ files := ⟨some [⟨none, .number 5, some (.number 1), 1000⟩], some []⟩,
             ops := [.appendLog [⟨none, .number 5, some (.number 1), 1000⟩],
                     .writeSnapshot []],
             caught := none },
           { files := ⟨some [⟨none, .number 5, some (.number 1), 1000⟩,
                             ⟨none, .number 5, some (.number 1), 2000⟩], some []⟩,
             ops := [.appendLog [⟨none, .number 5, some (.number 1), 2000⟩],
                     .writeSnapshot []],
             caught := none }) ∧
    runTwice { fetch := .ok [⟨"WATER", 5, "BUY"⟩], now := 1000, createOk := true,
               appendOk := true, saveOk := false }
        (Env.writesOk [⟨"WATER", 5, "BUY"⟩] 2000) ⟨some [], some []⟩ =
      .ok ({ files := ⟨some [⟨some (.number 2), .number 5, some (.number 1), 1000⟩], some []⟩,
             ops := [.appendLog [⟨some (.number 2), .number 5, some (.number 1), 1000⟩],
                     .writeSnapshot [("WATER", 5)]],
             caught := some (.ioError "writeFile lastPrices.json") },
           { files := ⟨some [⟨some (.number 2), .number 5, some (.number 1), 1000⟩,
                             ⟨some (.number 2), .number 5, some (.number 1), 2000⟩],
                       some [("WATER", 5)]⟩,
             ops := [.appendLog [⟨some (.number 2), .number 5, some (.number 1), 2000⟩],
                     .writeSnapshot [("WATER", 5)]],
             caught := none }) ∧
    runTwice (Env.writesOk [⟨"WATER", .posInfinity, "BUY"⟩] 1000)
        (Env.writesOk [⟨"WATER", .posInfinity, "BUY"⟩] 2000) ⟨some [], some []⟩ =
      .ok ({ files := ⟨some [⟨some (.number 2), .null, some (.number 1), 1000⟩],
                       some [("WATER", .null)]⟩,
             ops := [.appendLog [⟨some (.number 2), .null, some (.number 1), 1000⟩],
                     .writeSnapshot [("WATER", .null)]],
             caught := none },
           { files := ⟨some [⟨some (.number 2), .null, some (.number 1), 1000⟩,
                             ⟨some (.number 2), .null, some (.number 1), 2000⟩],
                       some [("WATER", .null)]⟩,
             ops := [.appendLog [⟨some (.number 2), .null, some (.number 1), 2000⟩],
                     .writeSnapshot [("WATER", .null)]],
             caught := none }) := by
  decide

/-- C3 (amended): for every baseline and every fresh price list in which every
amount is finite, entries with the same `referenceSymbol` carry the same amount,
and `__proto__` is listed only if the baseline already holds that key, when the
writes of the first cycle succeed, a second cycle on the same list (at any time,
with any write outcomes) against the files left by the first issues no write
call and leaves the files as they are, and its loop, when it completes, ends
with an empty `toAppend`. -/
theorem C3_second_run_noop (files : Files) (fresh : List PriceEntry) (t1 : Int) (env2 : Env)
    (hamt : ∀ x ∈ fresh, ∀ y ∈ fresh, x.referenceSymbol = y.referenceSymbol →
      x.amount = y.amount)
    (hproto : "__proto__" ∈ symbols fresh →
      ((loadLastPrices files).getOwn "__proto__").isSome = true)
    (hfin : ∀ e ∈ fresh, e.amount.isFinite = true)
    (hfetch : env2.fetch = .ok fresh) :
    ∃ o1 : Outcome,
      runTwice (Env.writesOk fresh t1) env2 files =
        .ok (o1, { files := o1.files, ops := [], caught := o1.caught }) ∧
      ∀ st2, processEntries (loadLastPrices o1.files) env2.now
          { toAppend := [], newSnapshot := loadLastPrices o1.files } fresh = .ok st2 →
        st2.toAppend = [] := by
  have hf1 : (Env.writesOk fresh t1).fetch = .ok fresh := rfl
  cases hl : processEntries (loadLastPrices files) t1
      { toAppend := [], newSnapshot := loadLastPrices files } fresh with
  | error err =>
    have h1 := cycle_of_loop_error (Env.writesOk fresh t1) files fresh err hf1 hl
    have hl2 := processEntries_error_stable (loadLastPrices files) t1 env2.now fresh _
      { toAppend := [], newSnapshot := loadLastPrices files } err hl
    have h2 := cycle_of_loop_error env2 files fresh err hfetch hl2
    refine ⟨{ files := files, ops := [], caught := some err }, ?_, ?_⟩
    · unfold runTwice
      rw [h1]
      simp only []
      rw [h2]
    · intro st2 hst2
      simp only [] at hst2
      rw [hl2] at hst2
      cases hst2
  | ok st =>
    have hnofail := no_fail_of_processEntries_ok _ _ _ _ _ hl
    obtain ⟨o1, hrun, hcaught, hsame, _⟩ :=
      first_run_then_all_same files fresh t1 hamt hproto hfin hnofail
    refine ⟨o1, ?_, ?_⟩
    · unfold runTwice
      rw [hrun]
      simp only []
      rw [cycle_of_all_same env2 o1.files fresh hfetch hsame, hcaught]
    · intro st2 hst2
      rw [processEntries_of_all_same _ _ _ _ hsame] at hst2
      cases hst2
      rfl

/-- C3 (amended) at a concrete input: `CLAY` at baseline 10, listed twice with
the fresh amount 12. -/
theorem C3_second_run_noop_witness :
    (∀ x ∈ [PriceEntry.mk "CLAY" 12 "BUY", PriceEntry.mk "CLAY" 12 "HOLD"],
      ∀ y ∈ [PriceEntry.mk "CLAY" 12 "BUY", PriceEntry.mk "CLAY" 12 "HOLD"],
      x.referenceSymbol = y.referenceSymbol → x.amount = y.amount) ∧
    ("__proto__" ∈ symbols [PriceEntry.mk "CLAY" 12 "BUY", PriceEntry.mk "CLAY" 12 "HOLD"] →
      ((loadLastPrices ⟨none, some [("CLAY", 10)]⟩).getOwn "__proto__").isSome = true) ∧
    (∀ e ∈ [PriceEntry.mk "CLAY" 12 "BUY", PriceEntry.mk "CLAY" 12 "HOLD"],
      e.amount.isFinite = true) ∧
    ∃ o1 : Outcome,
      runTwice (Env.writesOk [PriceEntry.mk "CLAY" 12 "BUY", PriceEntry.mk "CLAY" 12 "HOLD"] 1000)
          (Env.writesOk [PriceEntry.mk "CLAY" 12 "BUY", PriceEntry.mk "CLAY" 12 "HOLD"] 2000)
          ⟨none, some [("CLAY", 10)]⟩ =
        .ok (o1, { files := o1.files, ops := [], caught := o1.caught }) ∧
      ∀ st2, processEntries (loadLastPrices o1.files) 2000
          { toAppend := [], newSnapshot := loadLastPrices o1.files }
          [PriceEntry.mk "CLAY" 12 "BUY", PriceEntry.mk "CLAY" 12 "HOLD"] = .ok st2 →
        st2.toAppend = [] :=
  ⟨by decide, by decide, by decide,
    C3_second_run_noop ⟨none, some [("CLAY", 10)]⟩
      [PriceEntry.mk "CLAY" 12 "BUY", PriceEntry.mk "CLAY" 12 "HOLD"] 1000
      (Env.writesOk [PriceEntry.mk "CLAY" 12 "BUY", PriceEntry.mk "CLAY" 12 "HOLD"] 2000)
      (by decide) (by decide) (by decide) rfl⟩

/-- C4 (the code departs from the claim): with `CLAY` at baseline 10, the entry
`{CLAY, 12, "WAIT"}` has a changed amount and a symbol of the table, yet the
cycle yields no record for it: the loop throws on the assignment to the
`const recommendationId` and nothing is appended.  The same throw discards the
record of a well-formed entry listed before it: on an empty baseline, the
cycle on `[{EARTH, 7, BUY}, {WATER, 5, "WAIT"}]` appends nothing (the defect
of C1). -/
theorem C4_changed_entry_without_record :
    ("CLAY" ∈ ResourceEnum.names ∧
      lastAmount (loadLastPrices ⟨some [], some [("CLAY", 10)]⟩) ⟨"CLAY", 12, "WAIT"⟩ ≠
        .number 12 ∧
      fetchAndStorePrices (Env.writesOk [⟨"CLAY", 12, "WAIT"⟩] 1000)
          ⟨some [], some [("CLAY", 10)]⟩ =
        .ok { files := ⟨some [], some [("CLAY", 10)]⟩, ops := [],
              caught := some (.typeError "Assignment to constant variable.") }) ∧
    ("EARTH" ∈ ResourceEnum.names ∧
      lastAmount (loadLastPrices ⟨some [], some []⟩) ⟨"EARTH", 7, "BUY"⟩ ≠ .number 7 ∧
      fetchAndStorePrices
          (Env.writesOk [⟨"EARTH", 7, "BUY"⟩, ⟨"WATER", 5, "WAIT"⟩] 1000) ⟨some [], some []⟩ =
        .ok { files := ⟨some [], some []⟩, ops := [],
              caught := some (.typeError "Assignment to constant variable.") }) := by
  decide

/-- C5 (counterexample): (1) on an empty baseline with `WATER` listed twice, 5
then 0, the second entry equals its last amount 0, yet the baseline value of
`WATER` goes from absent to 5.  (2) On an empty baseline the entry
`{toString, 0, HOLD}` has amount 0 and a symbol absent from the baseline, yet
the read `lastPricesMap["toString"]` is the inherited function, the entry
counts as changed and a line is appended.  (3) On a baseline file holding the
literal `1e999` for `WATER`, read as an infinity, the entry `WATER` with the
same infinite amount is unchanged, yet the cycle, which appends `EARTH`, saves
`WATER` as `null`. -/
theorem C5_unchanged_entry_counterexample :
    (storedNumber ((loadLastPrices ⟨some [], some []⟩).getOwn "WATER") = 0 ∧
      fetchAndStorePrices (Env.writesOk [⟨"WATER", 5, "BUY"⟩, ⟨"WATER", 0, "HOLD"⟩] 1000)
          ⟨some [], some []⟩ =
        .ok { files := ⟨some [⟨some (.number 2), .number 5, some (.number 1), 1000⟩],
                        some [("WATER", 5)]⟩,
              ops := [.appendLog [⟨some (.number 2), .number 5, some (.number 1), 1000⟩],
                      .writeSnapshot [("WATER", 5)]],
              caught := none }) ∧
    (storedNumber ((loadLastPrices ⟨some [], some []⟩).getOwn "toString") = 0 ∧
      fetchAndStorePrices (Env.writesOk [⟨"toString", 0, "HOLD"⟩] 1000) ⟨some [], some []⟩ =
        .ok { files := ⟨some [⟨none, .number 0, some (.number 3), 1000⟩],
                        some [("toString", 0)]⟩,
              ops := [.appendLog [⟨none, .number 0, some (.number 3), 1000⟩],
                      .writeSnapshot [("toString", 0)]],
              caught := none }) ∧
    (storedNumber
        ((loadLastPrices ⟨some [], some [("WATER", .number .posInfinity)]⟩).getOwn "WATER") =
          .posInfinity ∧
      fetchAndStorePrices
          (Env.writesOk [⟨"WATER", .posInfinity, "HOLD"⟩, ⟨"EARTH", 5, "BUY"⟩] 1000)
          ⟨some [], some [("WATER", .number .posInfinity)]⟩ =
        .ok { files := ⟨some [⟨some (.number 1), .number 5, some (.number 1), 1000⟩],
                        some [("WATER", .null), ("EARTH", 5)]⟩,
              ops := [.appendLog [⟨some (.number 1), .number 5, some (.number 1), 1000⟩],
                      .writeSnapshot [("WATER", .null), ("EARTH", 5)]],
              caught := none }) := by
  decide

/-- C5 (amended): an entry whose symbol is not a property name inherited from
`Object.prototype` and whose amount equals its last amount (the number the
baseline holds for its symbol, 0 when the symbol is absent or holds `null`)
pushes no record, and the cycle behaves exactly as on the list without that
entry; if moreover the amount is finite and every entry of the list with the
same symbol carries the same amount, the baseline value for that symbol after
the cycle is the same as before. -/
theorem C5_unchanged_entry (env : Env) (files : Files) (pre post : List PriceEntry)
    (e : PriceEntry) (hfetch : env.fetch = .ok (pre ++ e :: post))
    (hkey : e.referenceSymbol ∉ objectPrototypeKeys)
    (hsame : storedNumber ((loadLastPrices files).getOwn e.referenceSymbol) = e.amount) :
    recordOf (loadLastPrices files) env.now e = none ∧
    fetchAndStorePrices env files =
      fetchAndStorePrices { env with fetch := .ok (pre ++ post) } files ∧
    ((∀ x ∈ pre ++ post, x.referenceSymbol = e.referenceSymbol → x.amount = e.amount) →
      e.amount.isFinite = true →
      ∀ o, fetchAndStorePrices env files = .ok o →
        (loadLastPrices o.files).getOwn e.referenceSymbol =
          (loadLastPrices files).getOwn e.referenceSymbol) := by
  have hla : lastAmount (loadLastPrices files) e = .number e.amount := by
    rw [lastAmount_of_absent _ e hkey, hsame]
  have hv : verdict (loadLastPrices files) e = .same := verdict_of_unchanged _ e hla
  refine ⟨recordOf_eq_none_of_same _ _ e hv, ?_, ?_⟩
  · unfold fetchAndStorePrices
    rw [hfetch]
    simp only []
    rw [processEntries_append, processEntries_append]
    cases processEntries (loadLastPrices files) env.now
        { toAppend := [], newSnapshot := loadLastPrices files } pre with
    | error err => rfl
    | ok st1 =>
      simp only []
      unfold processEntries
      rw [processEntry_eq_verdict, hv]
      cases post <;> rfl
  · intro hothers hfin o ho
    rcases cycle_lastPrices_cases env files o ho with h | ⟨fresh, hf, _, h⟩
    · rw [loadLastPrices_congr files o.files h]
    · rw [hfetch] at hf
      cases hf
      rw [loadLastPrices_of_some o.files _ h]
      have hframe : (snapshotOf (loadLastPrices files) (loadLastPrices files)
          (pre ++ e :: post)).getOwn e.referenceSymbol =
            (loadLastPrices files).getOwn e.referenceSymbol := by
        apply snapshotOf_getOwn_frame
        intro x hx s r hpush heq
        have hxa : x.amount = e.amount := by
          rcases List.mem_append.mp hx with h1 | h1
          · exact hothers x (List.mem_append_left _ h1) heq
          · rcases List.mem_cons.mp h1 with rfl | h2
            · rfl
            · exact hothers x (List.mem_append_right _ h2) heq
        have hxl : lastAmount (loadLastPrices files) x = .number x.amount := by
          rw [lastAmount_eq_of_symbol_eq _ x e heq, hla, hxa]
        rw [verdict_of_unchanged _ x hxl] at hpush
        cases hpush
      unfold saveLastPrices
      rw [Snapshot.getOwn_viaJSON, hframe]
      cases hown : (loadLastPrices files).getOwn e.referenceSymbol with
      | none => rfl
      | some v =>
        cases v with
        | null => rfl
        | number n =>
          rw [hown] at hsame
          simp only [storedNumber] at hsame
          rw [← hsame] at hfin
          cases n with
          | finite q => rfl
          | posInfinity => simp [JSNumber.isFinite] at hfin
          | negInfinity => simp [JSNumber.isFinite] at hfin

/-- C5 (amended) at the input of the specification: `{WATER, 0, HOLD}` on an
empty baseline. -/
theorem C5_unchanged_entry_witness :
    "WATER" ∉ objectPrototypeKeys ∧
    storedNumber ((loadLastPrices ⟨none, none⟩).getOwn "WATER") = 0 ∧
    (recordOf (loadLastPrices ⟨none, none⟩) 1000 (PriceEntry.mk "WATER" 0 "HOLD") = none ∧
     fetchAndStorePrices (Env.writesOk ([] ++ PriceEntry.mk "WATER" 0 "HOLD" :: []) 1000)
         ⟨none, none⟩ =
       fetchAndStorePrices
         { Env.writesOk ([] ++ PriceEntry.mk "WATER" 0 "HOLD" :: []) 1000 with
           fetch := .ok ([] ++ []) }
         ⟨none, none⟩ ∧
     ((∀ x ∈ ([] : List PriceEntry) ++ [], x.referenceSymbol = "WATER" → x.amount = 0) →
       (0 : JSNumber).isFinite = true →
       ∀ o, fetchAndStorePrices (Env.writesOk ([] ++ PriceEntry.mk "WATER" 0 "HOLD" :: []) 1000)
           ⟨none, none⟩ = .ok o →
         (loadLastPrices o.files).getOwn "WATER" =
           (loadLastPrices ⟨none, none⟩).getOwn "WATER")) :=
  ⟨by decide, by decide,
    C5_unchanged_entry (Env.writesOk ([] ++ PriceEntry.mk "WATER" 0 "HOLD" :: []) 1000)
      ⟨none, none⟩ [] [] (PriceEntry.mk "WATER" 0 "HOLD") rfl (by decide) (by decide)⟩

/-- C6 (the code departs from the claim): `length` is not a name of the
`ResourceEnum` table, yet `ResourceEnum["length"]` is the own property `0` of the
class constructor, so the entry `{length, 5, BUY}` is not skipped: the line
`{s: 0, a: 5, r: 1, t}` is appended and the baseline gains `length: 5`. -/
theorem C6_intrinsic_name_not_skipped :
    "length" ∉ ResourceEnum.names ∧
    fetchAndStorePrices (Env.writesOk [⟨"length", 5, "BUY"⟩] 1000) ⟨some [], some []⟩ =
      .ok { files := ⟨some [⟨some (.number 0), .number 5, some (.number 1), 1000⟩],
                      some [("length", 5)]⟩,
            ops := [.appendLog [⟨some (.number 0), .number 5, some (.number 1), 1000⟩],
                    .writeSnapshot [("length", 5)]],
            caught := none } := by
  decide

/-- C7: when the loop of a cycle ends with an empty `toAppend`, the cycle issues
no write call at all (no log creation, no append, no snapshot write), reports no
error, and leaves both files exactly as they were; a missing log stays
missing. -/
theorem C7_noop_cycle (env : Env) (files : Files) (fresh : List PriceEntry) (st : LoopState)
    (hfetch : env.fetch = .ok fresh)
    (hloop : processEntries (loadLastPrices files) env.now
      { toAppend := [], newSnapshot := loadLastPrices files } fresh = .ok st)
    (hzero : st.toAppend = []) :
    fetchAndStorePrices env files = .ok { files := files, ops := [], caught := none } := by
  rw [cycle_of_loop_ok env files fresh st hfetch hloop, hzero]
  rfl

/-- C7 at a concrete input: `{WATER, 0, HOLD}` on an empty baseline with no log. -/
theorem C7_noop_cycle_witness :
    fetchAndStorePrices (Env.writesOk [⟨"WATER", 0, "HOLD"⟩] 1000) ⟨none, none⟩ =
      .ok { files := ⟨none, none⟩, ops := [], caught := none } :=
  C7_noop_cycle (Env.writesOk [⟨"WATER", 0, "HOLD"⟩] 1000) ⟨none, none⟩
    [⟨"WATER", 0, "HOLD"⟩] { toAppend := [], newSnapshot := [] } rfl (by decide) rfl

/-- C8 (counterexample): (1) with `CLAY` at baseline 10 listed twice, 11 then
12, both entries are appended, yet the persisted baseline maps `CLAY` to 12,
not to the 11 of the first appended entry.  (2) The entry `{__proto__, 5, BUY}`
is appended, yet the persisted baseline has no value for `__proto__`.  (3) The
entry `WATER` with an infinite amount (the feed literal `1e999`) is appended,
yet the persisted baseline maps `WATER` to `null`, not to that amount.  (4) On
a baseline file holding the literal `1e999` for `EARTH`, a cycle that appends
only `CLAY` persists `EARTH` as `null`, not with its old value. -/
theorem C8_persisted_baseline_counterexample :
    fetchAndStorePrices (Env.writesOk [⟨"CLAY", 11, "BUY"⟩, ⟨"CLAY", 12, "BUY"⟩] 1000)
        ⟨some [], some [("CLAY", 10)]⟩ =
      .ok { files := ⟨some [⟨some (.number 5), .number 11, some (.number 1), 1000⟩,
                            ⟨some (.number 5), .number 12, some (.number 1), 1000⟩],
                      some [("CLAY", 12)]⟩,
            ops := [.appendLog [⟨some (.number 5), .number 11, some (.number 1), 1000⟩,
                                ⟨some (.number 5), .number 12, some (.number 1), 1000⟩],
                    .writeSnapshot [("CLAY", 12)]],
            caught := none } ∧
    fetchAndStorePrices (Env.writesOk [⟨"__proto__", 5, "BUY"⟩] 1000) ⟨some [], some []⟩ =
      .ok { files := ⟨some [⟨none, .number 5, some (.number 1), 1000⟩], some []⟩,
            ops := [.appendLog [⟨none, .number 5, some (.number 1), 1000⟩],
                    .writeSnapshot []],
            caught := none } ∧
    fetchAndStorePrices (Env.writesOk [⟨"WATER", .posInfinity, "BUY"⟩] 1000)
        ⟨some [], some []⟩ =
      .ok { files := ⟨some [⟨some (.number 2), .null, some (.number 1), 1000⟩],
                      some [("WATER", .null)]⟩,
            ops := [.appendLog [⟨some (.number 2), .null, some (.number 1), 1000⟩],
                    .writeSnapshot [("WATER", .null)]],
            caught := none } ∧
    fetchAndStorePrices (Env.writesOk [⟨"CLAY", 12, "BUY"⟩] 1000)
        ⟨some [], some [("EARTH", .number .posInfinity), ("CLAY", 10)]⟩ =
      .ok { files := ⟨some [⟨some (.number 5), .number 12, some (.number 1), 1000⟩],
                      some [("EARTH", .null), ("CLAY", 12)]⟩,
            ops := [.appendLog [⟨some (.number 5), .number 12, some (.number 1), 1000⟩],
                    .writeSnapshot [("EARTH", .null), ("CLAY", 12)]],
            caught := none } := by
  decide

/-- C8 (amended): when the loop of a cycle ends with a non-empty `toAppend` and
every write succeeds, the log gains exactly the serialised lines of that batch
and the persisted baseline is the old baseline as `JSON.stringify` writes it:
every symbol that has an appended entry (other than `__proto__` when the old
baseline does not hold that key) is mapped to the amount of the last appended
entry with that symbol, written as `null` when that amount is not finite, while
every symbol without an appended entry keeps its old value, written as `null`
when it is not finite (or its absence). -/
theorem C8_persisted_baseline (files : Files) (fresh : List PriceEntry) (now : Int)
    (st : LoopState)
    (hloop : processEntries (loadLastPrices files) now
      { toAppend := [], newSnapshot := loadLastPrices files } fresh = .ok st)
    (hne : st.toAppend ≠ []) :
    ∃ o S, fetchAndStorePrices (Env.writesOk fresh now) files = .ok o ∧
      o.caught = none ∧
      o.files.prices = some (files.prices.getD [] ++ blobOf st.toAppend) ∧
      o.files.lastPrices = some S ∧
      (∀ pre e post, fresh = pre ++ e :: post →
        (recordOf (loadLastPrices files) now e).isSome = true →
        (e.referenceSymbol ≠ "__proto__" ∨
          ((loadLastPrices files).getOwn e.referenceSymbol).isSome = true) →
        (∀ x ∈ post, (recordOf (loadLastPrices files) now x).isSome = true →
          x.referenceSymbol ≠ e.referenceSymbol) →
        S.getOwn e.referenceSymbol = some (SnapValue.viaJSON (.number e.amount))) ∧
      (∀ k, (∀ x ∈ fresh, (recordOf (loadLastPrices files) now x).isSome = true →
          x.referenceSymbol ≠ k) →
        S.getOwn k = ((loadLastPrices files).getOwn k).map SnapValue.viaJSON) := by
  have hf : (Env.writesOk fresh now).fetch = .ok fresh := rfl
  have hz : ¬ st.toAppend.length = 0 := fun h => hne (List.length_eq_zero.mp h)
  have hrun := cycle_of_loop_ok (Env.writesOk fresh now) files fresh st hf hloop
  rw [if_neg hz, writeChanges_all_ok] at hrun
  have hst := processEntries_ok_eq _ _ _ _ _ hloop
  have hnew : st.newSnapshot =
      snapshotOf (loadLastPrices files) (loadLastPrices files) fresh := by
    rw [hst]
  refine ⟨_, saveLastPrices st.newSnapshot, hrun, rfl, rfl, rfl, ?_, ?_⟩
  · intro pre e post hfresh hrec hk hpost
    obtain ⟨s, r, hv⟩ := (recordOf_isSome_iff _ now e).mp hrec
    have hk1 : e.referenceSymbol ≠ "__proto__" ∨
        ((snapshotOf (loadLastPrices files) (loadLastPrices files) pre).getOwn
          e.referenceSymbol).isSome = true := by
      rcases hk with h | h
      · exact Or.inl h
      · exact Or.inr (snapshotOf_getOwn_isSome _ _ pre _ h)
    unfold saveLastPrices
    rw [Snapshot.getOwn_viaJSON, hnew, hfresh,
      snapshotOf_getOwn_last _ _ pre post e s r hv hk1
        (fun x hx s1 r1 hx1 =>
          hpost x hx ((recordOf_isSome_iff _ now x).mpr ⟨s1, r1, hx1⟩))]
    rfl
  · intro k hk
    unfold saveLastPrices
    rw [Snapshot.getOwn_viaJSON, hnew,
      snapshotOf_getOwn_frame _ k fresh _
        (fun x hx s1 r1 hx1 => hk x hx ((recordOf_isSome_iff _ now x).mpr ⟨s1, r1, hx1⟩))]

/-- C8 (amended) at the scenario of the specification: the symbol of id 5
(`CLAY`) at baseline 10, fresh amount 12 with recommendation `BUY`; the record
`{s: 5, a: 12, r: 1, t}` is appended and the new baseline maps `CLAY` to 12. -/
theorem C8_persisted_baseline_witness :
    ∃ o S, fetchAndStorePrices (Env.writesOk [PriceEntry.mk "CLAY" 12 "BUY"] 1000)
        ⟨none, some [("CLAY", 10)]⟩ = .ok o ∧
      o.files.prices = some [⟨some (.number 5), .number 12, some (.number 1), 1000⟩] ∧
      o.files.lastPrices = some S ∧ S.getOwn "CLAY" = some 12 := by
  obtain ⟨o, S, hrun, _, hlog, hsnap, hlast, _⟩ :=
    C8_persisted_baseline ⟨none, some [("CLAY", 10)]⟩ [PriceEntry.mk "CLAY" 12 "BUY"] 1000
      { toAppend := [⟨.num 5, 12, .num 1, 1000⟩], newSnapshot := [("CLAY", 12)] }
      (by decide) (by decide)
  exact ⟨o, S, hrun, hlog.trans (by decide), hsnap,
    (hlast [] (PriceEntry.mk "CLAY" 12 "BUY") [] rfl (by decide) (by decide)
      (fun x hx => by simp at hx)).trans (by decide)⟩

/-- C9: for every outcome of the fetch, the load and the writes, the cycle
resolves (nothing escapes the `catch`); when the fetch fails no write call is
issued and the files are unchanged; when the append fails the snapshot file is
unchanged and no snapshot write is issued. -/
theorem C9_fail_soft (env : Env) (files : Files) :
    ∃ o : Outcome, fetchAndStorePrices env files = .ok o ∧
      ((∃ err, env.fetch = .error err) → o.files = files ∧ o.ops = []) ∧
      (env.appendOk = false →
        o.files.lastPrices = files.lastPrices ∧ ∀ m, FileOp.writeSnapshot m ∉ o.ops) := by
  cases hf : env.fetch with
  | error err =>
    refine ⟨_, cycle_of_fetch_error env files err hf, ?_, ?_⟩
    · intro _; exact ⟨rfl, rfl⟩
    · intro _; exact ⟨rfl, fun m hm => by simp at hm⟩
  | ok fresh =>
    cases hl : processEntries (loadLastPrices files) env.now
        { toAppend := [], newSnapshot := loadLastPrices files } fresh with
    | error err =>
      refine ⟨_, cycle_of_loop_error env files fresh err hf hl, ?_, ?_⟩
      · intro _; exact ⟨rfl, rfl⟩
      · intro _; exact ⟨rfl, fun m hm => by simp at hm⟩
    | ok st =>
      rw [cycle_of_loop_ok env files fresh st hf hl]
      by_cases hz : st.toAppend.length = 0
      · refine ⟨_, if_pos hz, ?_, ?_⟩
        · intro _; exact ⟨rfl, rfl⟩
        · intro _; exact ⟨rfl, fun m hm => by simp at hm⟩
      · refine ⟨_, if_neg hz, ?_, ?_⟩
        · rintro ⟨err, herr⟩
          cases herr
        · intro ha
          constructor
          · rw [writeChanges_lastPrices, ha]
            simp
          · intro m
            unfold writeChanges
            rw [ha]
            cases files.prices <;> cases env.createOk <;> simp

/-- C10 (counterexample): with the empty string as access token and an expiry
in the future, the token is non-null and the current time is before
`expiresAt`, yet `isTokenValid` returns false. -/
theorem C10_empty_token_counterexample :
    ¬ (∀ (tm : TokenManager) (now : Int),
        tm.isTokenValid now = true ↔
          (tm.accessToken ≠ none ∧ ∃ ms, tm.expiresAt = some (.valid ms) ∧ now < ms)) := by
  intro h
  have h1 := (h { accessToken := some "", expiresIn := some 3600, tokenType := none,
                  refreshToken := some "r", idToken := none, userId := none,
                  projectId := none, expiresAt := some (.valid 1000) } 0).mpr
    ⟨by simp, 1000, rfl, by decide⟩
  revert h1
  decide

/-- C10 (amended): `isTokenValid` returns true if and only if `accessToken` is a
non-empty string, `expiresAt` is set to a valid date, and the current time is
strictly before it. -/
theorem C10_isTokenValid_iff (tm : TokenManager) (now : Int) :
    tm.isTokenValid now = true ↔
      ((∃ tok, tm.accessToken = some tok ∧ tok ≠ "") ∧
        ∃ ms, tm.expiresAt = some (.valid ms) ∧ now < ms) := by
  unfold TokenManager.isTokenValid falsyString dateBefore
  cases hx : tm.expiresAt with
  | none => simp
  | some d =>
    cases ha : tm.accessToken with
    | none => simp
    | some tok =>
      by_cases ht : tok = ""
      · simp [ht]
      · cases d with
        | valid ms => simp [ht]
        | invalid => simp [ht]

/-- C11: for every credential state and every failing refresh (no response, an
error-status response, another error, or a resolved response without a body,
whose handling throws), `refresh` throws and every credential field keeps the
value it had before the call. -/
theorem C11_refresh_atomic (tm : TokenManager) (reply : TokenReply) (now : Int)
    (hfail : reply.fails = true) :
    (∃ e, (tm.refresh reply now).result = .error e) ∧ (tm.refresh reply now).manager = tm := by
  unfold TokenManager.refresh
  cases reply with
  | noResponse => exact ⟨⟨_, rfl⟩, rfl⟩
  | errorStatus status message => exact ⟨⟨_, rfl⟩, rfl⟩
  | otherError message => exact ⟨⟨_, rfl⟩, rfl⟩
  | success data =>
    cases data with
    | none => exact ⟨⟨_, rfl⟩, rfl⟩
    | some d => simp [TokenReply.fails] at hfail

/-- C11 at a concrete input: a manager holding a token, and a reply with status
400. -/
theorem C11_refresh_atomic_witness :
    (TokenReply.errorStatus 400 (some "TOKEN_EXPIRED")).fails = true ∧
    ((∃ e, (TokenManager.refresh
        { accessToken := some "a", expiresIn := some 3600, tokenType := some "Bearer",
          refreshToken := some "r", idToken := some "i", userId := some "u",
          projectId := some "p", expiresAt := some (.valid 1000) }
        (.errorStatus 400 (some "TOKEN_EXPIRED")) 5000).result = .error e) ∧
     (TokenManager.refresh
        { accessToken := some "a", expiresIn := some 3600, tokenType := some "Bearer",
          refreshToken := some "r", idToken := some "i", userId := some "u",
          projectId := some "p", expiresAt := some (.valid 1000) }
        (.errorStatus 400 (some "TOKEN_EXPIRED")) 5000).manager =
      { accessToken := some "a", expiresIn := some 3600, tokenType := some "Bearer",
        refreshToken := some "r", idToken := some "i", userId := some "u",
        projectId := some "p", expiresAt := some (.valid 1000) }) :=
  ⟨rfl, C11_refresh_atomic _ (.errorStatus 400 (some "TOKEN_EXPIRED")) 5000 rfl⟩

/-- C12 (counterexample): (1) a successful response with `expires_in = 3600`
and the empty string as `access_token`: the token is not valid at the time of
the refresh although `expires_in` exceeds the buffer.  (2) A successful response
with `expires_in = 10^16`: the instant `t0 + (expires_in - 60) * 1000` is out of
the range of a `Date`, `expiresAt` is an invalid date and the token is not
valid. -/
theorem C12_refresh_counterexample :
    (TokenManager.TOKEN_BUFFER_SECONDS < 3600 ∧
      (TokenManager.refresh
        { accessToken := none, expiresIn := none, tokenType := none, refreshToken := some "r",
          idToken := none, userId := none, projectId := none, expiresAt := none }
        (.success (some { access_token := some "", expires_in := some 3600,
                          token_type := some "Bearer", refresh_token := some "r2",
                          id_token := some "i", user_id := some "u", project_id := some "p" }))
        1000).manager.isTokenValid 1000 = false) ∧
    (TokenManager.TOKEN_BUFFER_SECONDS < 10000000000000000 ∧
      (TokenManager.refresh
        { accessToken := none, expiresIn := none, tokenType := none, refreshToken := some "r",
          idToken := none, userId := none, projectId := none, expiresAt := none }
        (.success (some { access_token := some "tok", expires_in := some 10000000000000000,
                          token_type := some "Bearer", refresh_token := some "r2",
                          id_token := some "i", user_id := some "u", project_id := some "p" }))
        1000).manager.expiresAt = some .invalid ∧
      (TokenManager.refresh
        { accessToken := none, expiresIn := none, tokenType := none, refreshToken := some "r",
          idToken := none, userId := none, projectId := none, expiresAt := none }
        (.success (some { access_token := some "tok", expires_in := some 10000000000000000,
                          token_type := some "Bearer", refresh_token := some "r2",
                          id_token := some "i", user_id := some "u", project_id := some "p" }))
        1000).manager.isTokenValid 1000 = false) := by
  decide

/-- C12 (amended): for every credential state and every successful response `R`
handled at time `t0`, `refresh` returns `R`, every credential field is the one
of `R`, and `expiresAt` is the date of the instant `t0 + (R.expires_in - 60) * 1000`
milliseconds: that instant when `expires_in` is a number and the instant lies
in the range of a `Date`, an invalid date otherwise.  The token is valid at
`t0` exactly when `access_token` is a non-empty string, `expires_in` exceeds the
60-second buffer and the instant lies in that range. -/
theorem C12_refresh_success (tm : TokenManager) (R : TokenResponse) (t0 : Int) :
    (tm.refresh (.success (some R)) t0).result = .ok R ∧
    (tm.refresh (.success (some R)) t0).manager.accessToken = R.access_token ∧
    (tm.refresh (.success (some R)) t0).manager.expiresIn = R.expires_in ∧
    (tm.refresh (.success (some R)) t0).manager.tokenType = R.token_type ∧
    (tm.refresh (.success (some R)) t0).manager.refreshToken = R.refresh_token ∧
    (tm.refresh (.success (some R)) t0).manager.idToken = R.id_token ∧
    (tm.refresh (.success (some R)) t0).manager.userId = R.user_id ∧
    (tm.refresh (.success (some R)) t0).manager.projectId = R.project_id ∧
    (tm.refresh (.success (some R)) t0).manager.expiresAt =
      some (JSDate.ofTime (R.expires_in.map (fun n => t0 + (n - 60) * 1000))) ∧
    (∀ n, R.expires_in = some n → inDateRange (t0 + (n - 60) * 1000) →
      (tm.refresh (.success (some R)) t0).manager.expiresAt =
        some (.valid (t0 + (n - 60) * 1000))) ∧
    ((tm.refresh (.success (some R)) t0).manager.isTokenValid t0 = true ↔
      ((∃ tok, R.access_token = some tok ∧ tok ≠ "") ∧
        ∃ n, R.expires_in = some n ∧ 60 < n ∧ inDateRange (t0 + (n - 60) * 1000))) := by
  have hm := refresh_success_manager tm R t0
  have hv := refresh_success_valid_iff tm R t0
  refine ⟨rfl, ?_, ?_, ?_, ?_, ?_, ?_, ?_, ?_, ?_, hv⟩
  · rw [hm]
  · rw [hm]
  · rw [hm]
  · rw [hm]
  · rw [hm]
  · rw [hm]
  · rw [hm]
  · rw [hm]; rfl
  · intro n hn hr
    rw [hm, hn]
    exact congrArg some ((ofTime_eq_valid_iff _ _).mpr ⟨rfl, hr⟩)

/-- What `getValidToken` returns, for every state, time and reply: the value
returned is the field `accessToken`.  If the token was valid at the call,
nothing changed, the value is a non-empty string and the token is valid.
Otherwise a refresh took place with a successful response `R`, the value is
`R.access_token`, and `isTokenValid` holds when the reply has been handled
exactly when `R.access_token` is a non-empty string, `R.expires_in` exceeds the
60-second buffer and the expiry instant lies in the range of a `Date`. -/
theorem getValidToken_returned_value (tm : TokenManager) (now : Int) (reply : TokenReply)
    (replyAt : Int) (v : Option String)
    (hret : (tm.getValidToken now reply replyAt).result = .ok v) :
    v = (tm.getValidToken now reply replyAt).manager.accessToken ∧
    (tm.isTokenValid now = true →
      (tm.getValidToken now reply replyAt).manager = tm ∧
      (∃ tok, v = some tok ∧ tok ≠ "") ∧
      (tm.getValidToken now reply replyAt).manager.isTokenValid now = true) ∧
    (tm.isTokenValid now = false →
      ∃ R, reply = .success (some R) ∧ v = R.access_token ∧
        ((tm.getValidToken now reply replyAt).manager.isTokenValid replyAt = true ↔
          ((∃ tok, R.access_token = some tok ∧ tok ≠ "") ∧
            ∃ n, R.expires_in = some n ∧ 60 < n ∧
              inDateRange (replyAt + (n - 60) * 1000)))) := by
  cases hvalid : tm.isTokenValid now with
  | true =>
    rw [getValidToken_of_valid tm now reply replyAt hvalid] at hret ⊢
    simp only [Except.ok.injEq] at hret
    refine ⟨hret.symm, ?_, ?_⟩
    · intro _
      refine ⟨rfl, ?_, hvalid⟩
      obtain ⟨⟨tok, htok, hne⟩, _⟩ := (isTokenValid_eq_true_iff tm now).mp hvalid
      exact ⟨tok, by rw [← hret, htok], hne⟩
    · intro h; cases h
  | false =>
    rw [getValidToken_of_invalid tm now reply replyAt hvalid] at hret ⊢
    cases hr : (tm.refresh reply replyAt).result with
    | error e =>
      rw [hr] at hret
      simp at hret
    | ok R =>
      rw [hr] at hret
      simp only [Except.ok.injEq] at hret
      have hreply := (refresh_result_ok_iff tm reply replyAt R).mp hr
      subst hreply
      simp only []
      refine ⟨hret.symm, ?_, ?_⟩
      · intro h; cases h
      · intro _
        refine ⟨R, rfl, ?_, refresh_success_valid_iff tm R replyAt⟩
        rw [← hret, refresh_success_manager]

/-- C13 (the code departs from the claim and from its own documentation, which
promises a valid access token or an error): on a manager just constructed,
(1) a refresh answered with status 200 and no `access_token` makes
`getValidToken` return normally with no string at all (`undefined`), the field
`accessToken` being absent and `isTokenValid` false at the moment of return;
(2) a refresh answered with `expires_in = 30` makes it return the token `tok`
although `isTokenValid` is false at the moment of return. -/
theorem C13_returns_invalid_token :
    (∃ tm, TokenManager.create (.str "r") (.str "k") = .ok tm ∧
      (tm.getValidToken 1000
          (.success (some { access_token := none, expires_in := some 3600,
                            token_type := some "Bearer", refresh_token := some "r2",
                            id_token := some "i", user_id := some "u",
                            project_id := some "p" })) 1000).result = .ok none ∧
      (tm.getValidToken 1000
          (.success (some { access_token := none, expires_in := some 3600,
                            token_type := some "Bearer", refresh_token := some "r2",
                            id_token := some "i", user_id := some "u",
                            project_id := some "p" })) 1000).manager.accessToken = none ∧
      (tm.getValidToken 1000
          (.success (some { access_token := none, expires_in := some 3600,
                            token_type := some "Bearer", refresh_token := some "r2",
                            id_token := some "i", user_id := some "u",
                            project_id := some "p" })) 1000).manager.isTokenValid 1000
        = false) ∧
    (∃ tm, TokenManager.create (.str "r") (.str "k") = .ok tm ∧
      (tm.getValidToken 1000
          (.success (some { access_token := some "tok", expires_in := some 30,
                            token_type := some "Bearer", refresh_token := some "r2",
                            id_token := some "i", user_id := some "u",
                            project_id := some "p" })) 1000).result = .ok (some "tok") ∧
      (tm.getValidToken 1000
          (.success (some { access_token := some "tok", expires_in := some 30,
                            token_type := some "Bearer", refresh_token := some "r2",
                            id_token := some "i", user_id := some "u",
                            project_id := some "p" })) 1000).manager.isTokenValid 1000
        = false) :=
  ⟨⟨_, rfl, by decide, by decide, by decide⟩, ⟨_, rfl, by decide, by decide⟩⟩

/-- C14: for every credential state and current time, if `isTokenValid` holds,
`getValidToken` returns the current `accessToken`, posts no refresh request and
leaves every credential field unchanged; otherwise it performs exactly one
refresh, and then returns the `accessToken` set by that refresh or throws the
error of the refresh. -/
theorem C14_getValidToken (tm : TokenManager) (now : Int) (reply : TokenReply)
    (replyAt : Int) :
    (tm.isTokenValid now = true →
      tm.getValidToken now reply replyAt =
        { manager := tm, result := .ok tm.accessToken, requests := [] }) ∧
    (tm.isTokenValid now = false →
      (tm.getValidToken now reply replyAt).requests = [(tm.refresh reply replyAt).request] ∧
      (tm.getValidToken now reply replyAt).manager = (tm.refresh reply replyAt).manager ∧
      ((∃ R, (tm.refresh reply replyAt).result = .ok R ∧
          (tm.getValidToken now reply replyAt).result =
            .ok (tm.refresh reply replyAt).manager.accessToken) ∨
       (∃ e, (tm.refresh reply replyAt).result = .error e ∧
          (tm.getValidToken now reply replyAt).result = .error e))) := by
  constructor
  · exact getValidToken_of_valid tm now reply replyAt
  · intro h
    rw [getValidToken_of_invalid tm now reply replyAt h]
    cases hr : (tm.refresh reply replyAt).result with
    | error e => exact ⟨rfl, rfl, Or.inr ⟨e, rfl, rfl⟩⟩
    | ok R => exact ⟨rfl, rfl, Or.inl ⟨R, rfl, rfl⟩⟩

/-- C15: a manager is never valid right after a successful construction (which
happens for every non-empty refresh token and API key) nor right after
`clearTokens`; `clearTokens` keeps `refreshToken` and sets the seven other
fields to null, and the next `getValidToken` posts one refresh request carrying
the retained refresh token. -/
theorem C15_never_valid_when_fresh :
    (∀ r k : String, r ≠ "" → k ≠ "" →
      TokenManager.create (.str r) (.str k) =
        .ok { accessToken := none, expiresIn := none, tokenType := none,
              refreshToken := some r, idToken := none, userId := none, projectId := none,
              expiresAt := none }) ∧
    (∀ (r k : JSVal) (tm : TokenManager), TokenManager.create r k = .ok tm →
      ∀ now, tm.isTokenValid now = false) ∧
    (∀ (tm : TokenManager) (now : Int), tm.clearTokens.isTokenValid now = false) ∧
    (∀ tm : TokenManager, tm.clearTokens =
      { accessToken := none, expiresIn := none, tokenType := none,
        refreshToken := tm.refreshToken, idToken := none, userId := none, projectId := none,
        expiresAt := none }) ∧
    (∀ (tm : TokenManager) (now : Int) (reply : TokenReply) (replyAt : Int),
      (tm.clearTokens.getValidToken now reply replyAt).requests =
        [{ grant_type := "refresh_token", refresh_token := tm.refreshToken }]) := by
  refine ⟨?_, ?_, ?_, ?_, ?_⟩
  · intro r k hr hk
    simp [TokenManager.create, notNonEmptyString, hr, hk]
  · intro r k tm h now
    unfold TokenManager.create at h
    split at h
    · cases h
    · split at h
      · cases h
      · cases h
        rfl
  · intro tm now
    rfl
  · intro tm
    rfl
  · intro tm now reply replyAt
    have hinv : tm.clearTokens.isTokenValid now = false := rfl
    rw [getValidToken_of_invalid _ now reply replyAt hinv]
    cases hr : (tm.clearTokens.refresh reply replyAt).result with
    | error e => simp only []; rw [refresh_request]; rfl
    | ok R => simp only []; rw [refresh_request]; rfl

/-- C16 (counterexample): for a manager holding the valid token `abc`, the
request sent carries the header `Bearer jwt_abc`, which is not `Bearer abc`. -/
theorem C16_authorization_counterexample :
    (TokenManager.getValidToken
        { accessToken := some "abc", expiresIn := some 3600, tokenType := some "Bearer",
          refreshToken := some "r", idToken := some "i", userId := some "u",
          projectId := some "p", expiresAt := some (.valid 5000) }
        1000 .noResponse 1000).result = .ok (some "abc") ∧
    (getCurrentPrices
        { accessToken := some "abc", expiresIn := some 3600, tokenType := some "Bearer",
          refreshToken := some "r", idToken := some "i", userId := some "u",
          projectId := some "p", expiresAt := some (.valid 5000) }
        1000 .noResponse 1000
        (.success (.value .absent (.value (.object ⟨"COIN", []⟩))))).requests =
      [{ authorization := "Bearer jwt_abc" }] ∧
    "Bearer jwt_abc" ≠ "Bearer " ++ "abc" := by
  decide

/-- C16 (amended): every call of `getCurrentPrices` asks the credential manager
for a token; when `getValidToken` throws, no request is sent; when it returns
the token `tok`, exactly one request is sent and its `Authorization` header is
the string `Bearer jwt_` followed by `tok`. -/
theorem C16_authorization_header (tm : TokenManager) (now : Int) (tokenReply : TokenReply)
    (replyAt : Int) (feedReply : FeedReply) :
    (getCurrentPrices tm now tokenReply replyAt feedReply).tokenRequests =
      (tm.getValidToken now tokenReply replyAt).requests ∧
    (getCurrentPrices tm now tokenReply replyAt feedReply).manager =
      (tm.getValidToken now tokenReply replyAt).manager ∧
    (∀ e, (tm.getValidToken now tokenReply replyAt).result = .error e →
      (getCurrentPrices tm now tokenReply replyAt feedReply).requests = []) ∧
    (∀ tok, (tm.getValidToken now tokenReply replyAt).result = .ok (some tok) →
      (getCurrentPrices tm now tokenReply replyAt feedReply).requests =
        [{ authorization := "Bearer jwt_" ++ tok }]) := by
  cases hr : (tm.getValidToken now tokenReply replyAt).result with
  | error e =>
    rw [getCurrentPrices_of_token_error tm now tokenReply replyAt feedReply e hr]
    refine ⟨rfl, rfl, ?_, ?_⟩
    · intro _ _; rfl
    · intro tok h; cases h
  | ok token =>
    rw [getCurrentPrices_of_token_ok tm now tokenReply replyAt feedReply token hr]
    refine ⟨rfl, rfl, ?_, ?_⟩
    · intro e h; cases h
    · intro tok h
      cases h
      rfl

/-- C17 (counterexample): for a manager holding a valid token, (1) a resolved
response carrying a GraphQL `errors` array raises the generic error
`Exchange price request error: GraphQL errors: ...`, without status, whereas a
response with status 500 raises the error
`Exchange price request failed (500): ...`: the two are in different classes;
(2) a resolved response `{data: null}`, which carries no top-level `errors`,
does not return: it raises the generic error; (3) a resolved response that
carries a top-level `errors` field with a falsy value (`errors: null`) returns
its `exchangePriceList`. -/
theorem C17_graphql_errors_counterexample :
    ((getCurrentPrices
        { accessToken := some "abc", expiresIn := some 3600, tokenType := some "Bearer",
          refreshToken := some "r", idToken := some "i", userId := some "u",
          projectId := some "p", expiresAt := some (.valid 5000) }
        1000 .noResponse 1000
        (.success (.value (.truthy "[\x7b\"message\":\"boom\"\x7d]") .nullish))).result =
      .error (.other "GraphQL errors: [\x7b\"message\":\"boom\"\x7d]") ∧
     (getCurrentPrices
        { accessToken := some "abc", expiresIn := some 3600, tokenType := some "Bearer",
          refreshToken := some "r", idToken := some "i", userId := some "u",
          projectId := some "p", expiresAt := some (.valid 5000) }
        1000 .noResponse 1000 (.errorStatus 500 (some "boom"))).result =
      .error (.failed 500 "boom")) ∧
    (getCurrentPrices
        { accessToken := some "abc", expiresIn := some 3600, tokenType := some "Bearer",
          refreshToken := some "r", idToken := some "i", userId := some "u",
          projectId := some "p", expiresAt := some (.valid 5000) }
        1000 .noResponse 1000 (.success (.value .absent .nullish))).result =
      .error (.other "Cannot read properties of undefined (reading exchangePriceList)") ∧
    (getCurrentPrices
        { accessToken := some "abc", expiresIn := some 3600, tokenType := some "Bearer",
          refreshToken := some "r", idToken := some "i", userId := some "u",
          projectId := some "p", expiresAt := some (.valid 5000) }
        1000 .noResponse 1000
        (.success (.value .falsy (.value (.object ⟨"COIN", []⟩))))).result =
      .ok (.object ⟨"COIN", []⟩) := by
  decide

/-- C17 (amended): once a token is obtained, `getCurrentPrices` returns the
`exchangePriceList` of the response exactly when a response was received with
a success status whose body is an object, whose top-level `errors` is absent or
falsy and whose `data` is neither `null` nor `undefined`; every other outcome
throws exactly one error of one of three classes: a response with an error
status gives the class with status and message, no response gives the network
class, and everything else gives the generic class carrying a message and no
status: a truthy top-level `errors` (message `GraphQL errors: ` followed by its
serialisation), a body or a `data` that cannot be read, and any other failure
of the request.  When no token is obtained the generic class wraps the message
of the token error. -/
theorem C17_error_classes (tm : TokenManager) (now : Int) (tokenReply : TokenReply)
    (replyAt : Int) (feedReply : FeedReply) :
    (∀ e, (tm.getValidToken now tokenReply replyAt).result = .error e →
      (getCurrentPrices tm now tokenReply replyAt feedReply).result =
        .error (.other e.message)) ∧
    (∀ token, (tm.getValidToken now tokenReply replyAt).result = .ok token →
      (∀ payload, (getCurrentPrices tm now tokenReply replyAt feedReply).result = .ok payload ↔
        ∃ errors, (∀ serialized, errors ≠ .truthy serialized) ∧
          feedReply = .success (.value errors (.value payload))) ∧
      (∀ serialized data, feedReply = .success (.value (.truthy serialized) data) →
        (getCurrentPrices tm now tokenReply replyAt feedReply).result =
          .error (.other ("GraphQL errors: " ++ serialized))) ∧
      (∀ errors, (∀ serialized, errors ≠ .truthy serialized) →
        feedReply = .success (.value errors .nullish) →
        ∃ message, (getCurrentPrices tm now tokenReply replyAt feedReply).result =
          .error (.other message)) ∧
      (feedReply = .success .nullish →
        ∃ message, (getCurrentPrices tm now tokenReply replyAt feedReply).result =
          .error (.other message)) ∧
      (∀ status message, feedReply = .errorStatus status message →
        (getCurrentPrices tm now tokenReply replyAt feedReply).result =
          .error (.failed status (orDefault message "Exchange price request failed"))) ∧
      (feedReply = .noResponse →
        (getCurrentPrices tm now tokenReply replyAt feedReply).result = .error .network) ∧
      (∀ message, feedReply = .otherError message →
        (getCurrentPrices tm now tokenReply replyAt feedReply).result =
          .error (.other message))) := by
  cases hr : (tm.getValidToken now tokenReply replyAt).result with
  | error e =>
    rw [getCurrentPrices_of_token_error tm now tokenReply replyAt feedReply e hr]
    refine ⟨?_, ?_⟩
    · intro e1 h; cases h; rfl
    · intro token h; cases h
  | ok token =>
    rw [getCurrentPrices_of_token_ok tm now tokenReply replyAt feedReply token hr]
    refine ⟨?_, ?_⟩
    · intro e h; cases h
    · intro _ _
      cases feedReply with
      | noResponse => simp
      | errorStatus status message => simp
      | otherError message => simp
      | success body =>
        cases body with
        | nullish => simp
        | value errors data =>
          cases errors with
          | truthy serialized =>
            cases data with
            | nullish => simp
            | value exchangePriceList =>
              refine ⟨?_, by simp⟩
              intro payload
              constructor
              · intro h
                cases h
              · rintro ⟨errors, herr, h⟩
                cases h
                exact absurd rfl (herr serialized)
          | absent =>
            cases data with
            | nullish => simp
            | value exchangePriceList =>
              refine ⟨?_, by simp⟩
              intro payload
              constructor
              · intro h
                cases h
                exact ⟨.absent, fun _ h1 => ErrorsField.noConfusion h1, rfl⟩
              · rintro ⟨errors, herr, h⟩
                cases h
                rfl
          | falsy =>
            cases data with
            | nullish => simp
            | value exchangePriceList =>
              refine ⟨?_, by simp⟩
              intro payload
              constructor
              · intro h
                cases h
                exact ⟨.falsy, fun _ h1 => ErrorsField.noConfusion h1, rfl⟩
              · rintro ⟨errors, herr, h⟩
                cases h
                rfl

/-- C17 (amended) at a concrete input: a manager holding a valid token and a
resolved response without `errors` whose `data` carries the list of `COIN`. -/
theorem C17_error_classes_witness :
    (getCurrentPrices
        { accessToken := some "abc", expiresIn := some 3600, tokenType := some "Bearer",
          refreshToken := some "r", idToken := some "i", userId := some "u",
          projectId := some "p", expiresAt := some (.valid 5000) }
        1000 .noResponse 1000
        (.success (.value .absent (.value (.object ⟨"COIN", []⟩))))).result =
      .ok (.object ⟨"COIN", []⟩) :=
  (((C17_error_classes
        { accessToken := some "abc", expiresIn := some 3600, tokenType := some "Bearer",
          refreshToken := some "r", idToken := some "i", userId := some "u",
          projectId := some "p", expiresAt := some (.valid 5000) }
        1000 .noResponse 1000
        (.success (.value .absent (.value (.object ⟨"COIN", []⟩))))).2
      (some "abc") (by decide)).1 (.object ⟨"COIN", []⟩)).mpr
    ⟨.absent, ⟨fun _ h => ErrorsField.noConfusion h, rfl⟩⟩

/-- C18 (the code departs from the claim): when `getCurrentPrices` returns the
structure `{ baseSymbol, prices }`, `getPricesForSymbol` throws a `TypeError`
for the symbol of the structure as well as for any other symbol, because a plain
object has no `find`; only on an array does it return the matching item or
null. -/
theorem C18_getPricesForSymbol_throws :
    getPricesForSymbol (.ok (.object ⟨"COIN", [⟨"WATER", 5, "BUY"⟩]⟩)) "COIN" =
      .error (.typeError "priceList.find is not a function") ∧
    getPricesForSymbol (.ok (.object ⟨"COIN", [⟨"WATER", 5, "BUY"⟩]⟩)) "EARTH" =
      .error (.typeError "priceList.find is not a function") ∧
    (getCurrentPrices
        { accessToken := some "abc", expiresIn := some 3600, tokenType := some "Bearer",
          refreshToken := some "r", idToken := some "i", userId := some "u",
          projectId := some "p", expiresAt := some (.valid 5000) }
        1000 .noResponse 1000
        (.success (.value .absent
          (.value (.object ⟨"COIN", [⟨"WATER", 5, "BUY"⟩]⟩))))).result =
      .ok (.object ⟨"COIN", [⟨"WATER", 5, "BUY"⟩]⟩) ∧
    getPricesForSymbol (.ok (.array [⟨"COIN", [⟨"WATER", 5, "BUY"⟩]⟩])) "COIN" =
      .ok (some ⟨"COIN", [⟨"WATER", 5, "BUY"⟩]⟩) ∧
    getPricesForSymbol (.ok (.array [⟨"COIN", [⟨"WATER", 5, "BUY"⟩]⟩])) "EARTH" = .ok none := by
  decide

/-- C19 (the code departs from the claim): on an empty baseline the cycle on
`[{WATER, 5, BUY}, {length, 5, BUY}]` appends a batch of two records, one of them
`{s: 0, a: 5, r: 1, t}` for the entry `length`, whose symbol is not a name of the
`ResourceEnum` table (the defect of C6); likewise the cycle on
`[{WATER, 5, name}]` appends a record whose `r` is the string
`RecommendationEnum`, which is no recommendation id.  The order of the fresh
list and the single timestamp are kept. -/
theorem C19_batch_with_unknown_symbol :
    ("length" ∉ ResourceEnum.names ∧
      fetchAndStorePrices (Env.writesOk [⟨"WATER", 5, "BUY"⟩, ⟨"length", 5, "BUY"⟩] 1000)
          ⟨none, none⟩ =
        .ok { files := ⟨some [⟨some (.number 2), .number 5, some (.number 1), 1000⟩,
                              ⟨some (.number 0), .number 5, some (.number 1), 1000⟩],
                        some [("WATER", 5), ("length", 5)]⟩,
              ops := [.createLog,
                      .appendLog [⟨some (.number 2), .number 5, some (.number 1), 1000⟩,
                                  ⟨some (.number 0), .number 5, some (.number 1), 1000⟩],
                      .writeSnapshot [("WATER", 5), ("length", 5)]],
              caught := none }) ∧
    ("name" ∉ RecommendationEnum.names ∧
      fetchAndStorePrices (Env.writesOk [⟨"WATER", 5, "name"⟩] 1000) ⟨none, none⟩ =
        .ok { files := ⟨some [⟨some (.number 2), .number 5,
                               some (.string "RecommendationEnum"), 1000⟩],
                        some [("WATER", 5)]⟩,
              ops := [.createLog,
                      .appendLog [⟨some (.number 2), .number 5,
                                   some (.string "RecommendationEnum"), 1000⟩],
                      .writeSnapshot [("WATER", 5)]],
              caught := none }) := by
  decide

/-- C20 (counterexample): with distinct symbols of the table and known
recommendations, (1) on an empty baseline the entry `WATER` with an infinite
amount (the feed literal `1e999`) is appended, the baseline left is
`WATER: null`, which does not agree with the fresh list, and the second cycle
on the same list appends the entry again; (2) on the baseline `WATER: null`,
where `WATER` is present, the entry `WATER` of amount 0 is unchanged, nothing
is written and the baseline still holds `null`, not the fresh amount 0. -/
theorem C20_converges_counterexample :
    ((symbols [⟨"WATER", .posInfinity, "BUY"⟩]).Nodup ∧
      "WATER" ∈ ResourceEnum.names ∧ "BUY" ∈ RecommendationEnum.names ∧
      runTwice (Env.writesOk [⟨"WATER", .posInfinity, "BUY"⟩] 1000)
          (Env.writesOk [⟨"WATER", .posInfinity, "BUY"⟩] 2000) ⟨some [], some []⟩ =
        .ok ({ files := ⟨some [⟨some (.number 2), .null, some (.number 1), 1000⟩],
                         some [("WATER", .null)]⟩,
               ops := [.appendLog [⟨some (.number 2), .null, some (.number 1), 1000⟩],
                       .writeSnapshot [("WATER", .null)]],
               caught := none },
             { files := ⟨some [⟨some (.number 2), .null, some (.number 1), 1000⟩,
                               ⟨some (.number 2), .null, some (.number 1), 2000⟩],
                         some [("WATER", .null)]⟩,
               ops := [.appendLog [⟨some (.number 2), .null, some (.number 1), 2000⟩],
                       .writeSnapshot [("WATER", .null)]],
               caught := none })) ∧
    ("HOLD" ∈ RecommendationEnum.names ∧
      ((loadLastPrices ⟨some [], some [("WATER", .null)]⟩).getOwn "WATER").isSome = true ∧
      fetchAndStorePrices (Env.writesOk [⟨"WATER", 0, "HOLD"⟩] 1000)
          ⟨some [], some [("WATER", .null)]⟩ =
        .ok { files := ⟨some [], some [("WATER", .null)]⟩, ops := [], caught := none } ∧
      (loadLastPrices ⟨some [], some [("WATER", .null)]⟩).getOwn "WATER" ≠ some 0) := by
  decide

/-- C20 (amended): for every baseline and every fresh price list in which no
symbol occurs twice, every symbol is a name of `ResourceEnum`, every
recommendation a name of `RecommendationEnum` and every amount is finite, a
cycle whose writes succeed completes without error and leaves a baseline
holding the fresh amount for every listed symbol whose amount is non-zero or
for which the old baseline held a number; a second cycle on the same list
against that baseline (at any time, with any write outcomes) pushes no record,
issues no write call and leaves the files as they are. -/
theorem C20_converges (files : Files) (fresh : List PriceEntry) (now : Int) (env2 : Env)
    (hnodup : (symbols fresh).Nodup)
    (hsym : ∀ e ∈ fresh, e.referenceSymbol ∈ ResourceEnum.names)
    (hrec : ∀ e ∈ fresh, e.recommendation ∈ RecommendationEnum.names)
    (hfin : ∀ e ∈ fresh, e.amount.isFinite = true)
    (hfetch : env2.fetch = .ok fresh) :
    ∃ o1 : Outcome, fetchAndStorePrices (Env.writesOk fresh now) files = .ok o1 ∧
      o1.caught = none ∧
      (∀ e ∈ fresh,
        (e.amount ≠ 0 ∨
          ∃ n, (loadLastPrices files).getOwn e.referenceSymbol = some (.number n)) →
        (loadLastPrices o1.files).getOwn e.referenceSymbol = some (.number e.amount)) ∧
      processEntries (loadLastPrices o1.files) env2.now
          { toAppend := [], newSnapshot := loadLastPrices o1.files } fresh =
        .ok { toAppend := [], newSnapshot := loadLastPrices o1.files } ∧
      fetchAndStorePrices env2 o1.files = .ok { files := o1.files, ops := [], caught := none } := by
  have hnofail : ∀ e ∈ fresh, ∀ err, verdict (loadLastPrices files) e ≠ .fail err :=
    fun e he => no_fail_of_known _ e (hsym e he) (hrec e he)
  have hnames : ∀ k ∈ ResourceEnum.names, k ≠ "__proto__" ∧ k ∉ objectPrototypeKeys := by
    decide
  have hproto : "__proto__" ∉ symbols fresh := by
    intro h
    obtain ⟨e, he, heq⟩ := List.mem_map.mp h
    exact (hnames _ (hsym e he)).1 heq
  obtain ⟨o1, hrun, hcaught, hsame, hfiles⟩ :=
    first_run_then_all_same files fresh now (amounts_consistent_of_nodup fresh hnodup)
      (fun h => absurd h hproto) hfin hnofail
  refine ⟨o1, hrun, hcaught, ?_, processEntries_of_all_same _ _ _ _ hsame,
    cycle_of_all_same env2 o1.files fresh hfetch hsame⟩
  intro e he hcond
  have hk := hnames _ (hsym e he)
  have hold : verdict (loadLastPrices files) e = .same →
      (loadLastPrices files).getOwn e.referenceSymbol = some (.number e.amount) := by
    intro hv
    have hun := unchanged_of_same_known _ e hv (hsym e he)
    rw [lastAmount_of_absent _ e hk.2] at hun
    simp only [ReadValue.number.injEq] at hun
    exact getOwn_of_storedNumber _ _ hun hcond
  rcases hfiles with ⟨hnil, hsamefiles⟩ | ⟨_, hload⟩
  · rw [hsamefiles]
    cases hv : verdict (loadLastPrices files) e with
    | push s r => exact absurd hv ((batchOf_eq_nil_iff _ _ _).mp hnil e he s r)
    | fail err => exact absurd hv (hnofail e he err)
    | same => exact hold hv
  · rw [hload]
    unfold saveLastPrices
    rw [Snapshot.getOwn_viaJSON]
    obtain ⟨hpush, hkeep⟩ := snapshotOf_getOwn_nodup (loadLastPrices files) fresh hnodup e he
    cases hv : verdict (loadLastPrices files) e with
    | push s r =>
      rw [hpush s r hv hk.1]
      exact congrArg some (SnapValue.viaJSON_number_of_finite _ (hfin e he))
    | fail err => exact absurd hv (hnofail e he err)
    | same =>
      rw [hkeep (fun s r h => by rw [hv] at h; cases h), hold hv]
      exact congrArg some (SnapValue.viaJSON_number_of_finite _ (hfin e he))

/-- C20 (amended) at a concrete input: `CLAY` at baseline 10 with fresh amount
12, and `WATER`, absent from the baseline, with fresh amount 0. -/
theorem C20_converges_witness :
    (symbols [⟨"CLAY", 12, "BUY"⟩, ⟨"WATER", 0, "HOLD"⟩]).Nodup ∧
    (∀ e ∈ [PriceEntry.mk "CLAY" 12 "BUY", PriceEntry.mk "WATER" 0 "HOLD"],
      e.referenceSymbol ∈ ResourceEnum.names) ∧
    (∀ e ∈ [PriceEntry.mk "CLAY" 12 "BUY", PriceEntry.mk "WATER" 0 "HOLD"],
      e.recommendation ∈ RecommendationEnum.names) ∧
    (∀ e ∈ [PriceEntry.mk "CLAY" 12 "BUY", PriceEntry.mk "WATER" 0 "HOLD"],
      e.amount.isFinite = true) ∧
    ∃ o1 : Outcome,
      fetchAndStorePrices
          (Env.writesOk [PriceEntry.mk "CLAY" 12 "BUY", PriceEntry.mk "WATER" 0 "HOLD"] 1000)
          ⟨none, some [("CLAY", 10)]⟩ = .ok o1 ∧
      o1.caught = none ∧
      (∀ e ∈ [PriceEntry.mk "CLAY" 12 "BUY", PriceEntry.mk "WATER" 0 "HOLD"],
        (e.amount ≠ 0 ∨
          ∃ n, (loadLastPrices ⟨none, some [("CLAY", 10)]⟩).getOwn e.referenceSymbol =
            some (.number n)) →
        (loadLastPrices o1.files).getOwn e.referenceSymbol = some (.number e.amount)) ∧
      processEntries (loadLastPrices o1.files) 2000
          { toAppend := [], newSnapshot := loadLastPrices o1.files }
          [PriceEntry.mk "CLAY" 12 "BUY", PriceEntry.mk "WATER" 0 "HOLD"] =
        .ok { toAppend := [], newSnapshot := loadLastPrices o1.files } ∧
      fetchAndStorePrices
          (Env.writesOk [PriceEntry.mk "CLAY" 12 "BUY", PriceEntry.mk "WATER" 0 "HOLD"] 2000)
          o1.files = .ok { files := o1.files, ops := [], caught := none } :=
  ⟨by decide, by decide, by decide, by decide,
    C20_converges ⟨none, some [("CLAY", 10)]⟩
      [PriceEntry.mk "CLAY" 12 "BUY", PriceEntry.mk "WATER" 0 "HOLD"] 1000
      (Env.writesOk [PriceEntry.mk "CLAY" 12 "BUY", PriceEntry.mk "WATER" 0 "HOLD"] 2000)
      (by decide) (by decide) (by decide) (by decide) rfl⟩

end DynoNomics
